import Mathlib

/-!
Verification of the wavefront-converter mesh/collision core.

Shallow embedding conventions:
* 32-bit floats are modelled as exact rationals (`ℚ`); the f32 literals
  `0.0873` and `0.6981` are modelled by the rationals `873/10000` and
  `6981/10000`.  Machine-float `sqrt` and `asin` are not rational
  functions, so every definition that calls them is parameterised by
  abstract functions `sq asq : ℚ → ℚ` standing for them; theorems
  quantify over those parameters and hypothesise on their outputs.
* Machine integers (u16/u32/u64) are modelled as `Nat` with explicit
  `% 2^w` where the source casts or overflows.
* The byte codec is modelled at the level of 32-bit words: every f32
  field is represented by its 32-bit pattern (a `Nat`), and byte streams
  are `List Nat` with every entry reduced `% 256` by the writers.
* Fallible operations (Rust `panic!` / out-of-bounds slice / unwrap)
  return `Option`.
-/

/-- Two-component float vector, as in `model/mod.rs` (`pub type Vec2 = [f32; 2]`). -/
structure QVec2 where
  s : ℚ
  t : ℚ
deriving DecidableEq, Repr

/-- Three-component float vector with named fields, as `Vec3` in `collisiondata/mod.rs`
(also stands in for `[f32; 3]` from `model/mod.rs`). -/
structure QVec3 where
  x : ℚ
  y : ℚ
  z : ℚ
deriving DecidableEq, Repr

/-- Interleaved vertex: position, normal, texture coordinate (`Vertex` in `model/mod.rs`). -/
structure Vrtx where
  position : QVec3
  normal : QVec3
  tex_coord : QVec2
deriving DecidableEq, Repr

/-- Zero vertex, as produced by `Vertex::new_empty`. -/
def Vrtx.empty : Vrtx :=
  ⟨⟨0, 0, 0⟩, ⟨0, 0, 0⟩, ⟨0, 0⟩⟩

/-- Attribute pool (`RawModelData` in `model/mod.rs`): three append-only sequences. -/
structure RawModelData where
  raw_positions : List QVec3
  raw_tex_coords : List QVec2
  raw_normals : List QVec3
deriving DecidableEq, Repr

/-- Pool lookup `RawModelData::get_raw_position` (`Vec::get`, so `Option`). -/
def RawModelData.getRawPosition (r : RawModelData) (i : Nat) : Option QVec3 :=
  r.raw_positions.get? i

/-- Pool lookup `RawModelData::get_raw_normal`. -/
def RawModelData.getRawNormal (r : RawModelData) (i : Nat) : Option QVec3 :=
  r.raw_normals.get? i

/-- Pool lookup `RawModelData::get_raw_tex_coord`. -/
def RawModelData.getRawTexCoord (r : RawModelData) (i : Nat) : Option QVec2 :=
  r.raw_tex_coords.get? i

/-- Finite-map lookup used to model the `HashMap<u64, u16>` of `Model`. -/
def findIdx (k : Nat) : List (Nat × Nat) → Option Nat
  | [] => none
  | (a, b) :: t => if k = a then some b else findIdx k t

/-- Mesh object under construction (`Model` in `model/mod.rs`); the name field is
irrelevant to the verified operations and omitted. -/
structure Model where
  interleaved_vertices : List Vrtx
  face_indices : List Nat
  index_map : List (Nat × Nat)
deriving DecidableEq, Repr

/-- Empty model, as built by `Model::new`. -/
def Model.new : Model :=
  ⟨[], [], []⟩

/-- Vertex deduplicator `Model::get_index` (`model/mod.rs` lines 113-126).
The composite key is `index_tex_coord + (index_normal << 16) + (index_position << 32)`
in `u64` arithmetic; a fresh triple is assigned `interleaved_vertices.len() as u16`,
i.e. the length reduced `% 2^16`.  Returns the index together with the updated model. -/
def Model.getIndex (m : Model) (indexPosition indexNormal indexTexCoord : Nat)
    (vertex : Vrtx) : Nat × Model :=
  let identifier : Nat :=
    (indexTexCoord + indexNormal * 65536 + indexPosition * 4294967296) % 18446744073709551616
  match findIdx identifier m.index_map with
  | some position => (position, m)
  | none =>
      let newIndex := m.interleaved_vertices.length % 65536
      (newIndex,
        { m with
          index_map := (identifier, newIndex) :: m.index_map,
          interleaved_vertices := m.interleaved_vertices ++ [vertex] })

/-- Face append `Model::add_face`: pushes the three indices onto `face_indices`. -/
def Model.addFace (m : Model) (a b c : Nat) : Model :=
  { m with face_indices := m.face_indices ++ [a, b, c] }

/-- Face reference triple (`IndexSet` in `modelfactory/mod.rs`): 0-based u16 indices. -/
structure IndexSet where
  position_index : Nat
  normal_index : Nat
  tex_coord_index : Nat
deriving DecidableEq, Repr

/-- Attribute resolution `ModelFactory::vertex_from_indices`; the source `unwrap`s, so
a missing attribute is `none` here. -/
def vertexFromIndices (raw : RawModelData) (s : IndexSet) : Option Vrtx := do
  let p ← raw.getRawPosition s.position_index
  let n ← raw.getRawNormal s.normal_index
  let t ← raw.getRawTexCoord s.tex_coord_index
  pure ⟨p, n, t⟩

/-- Loop body of `ModelFactory::add_faces_for_index_sets`: for each remaining
reference, resolve, deduplicate, emit `(start, second, third)`, then shift
`second := third`. -/
def addFacesLoop (raw : RawModelData) (startIndex : Nat) :
    Nat → Model → List IndexSet → Option Model
  | _, m, [] => some m
  | secondIndex, m, s :: rest => do
      let v ← vertexFromIndices raw s
      let (thirdIndex, m2) := m.getIndex s.position_index s.normal_index s.tex_coord_index v
      addFacesLoop raw startIndex thirdIndex (m2.addFace startIndex secondIndex thirdIndex) rest

/-- Fan triangulator `ModelFactory::add_faces_for_index_sets`
(`modelfactory/mod.rs` lines 49-68).  The source indexes `index_sets[0]` and
`index_sets[1]` unconditionally (a panic on shorter input, `none` here), then
fans out the remaining references. -/
def addFacesForIndexSets (raw : RawModelData) (indexSets : List IndexSet)
    (model : Model) : Option Model :=
  match indexSets with
  | s0 :: s1 :: rest => do
      let v0 ← vertexFromIndices raw s0
      let (startIndex, m0) := model.getIndex s0.position_index s0.normal_index s0.tex_coord_index v0
      let v1 ← vertexFromIndices raw s1
      let (secondIndex, m1) := m0.getIndex s1.position_index s1.normal_index s1.tex_coord_index v1
      addFacesLoop raw startIndex secondIndex m1 rest
  | _ => none

/-- Wall elevation lower bound, f32 literal `-0.0873` modelled exactly. -/
def WALL_NORMAL_ELEVATION_MIN : ℚ := -873/10000

/-- Wall elevation upper bound, f32 literal `0.0873`. -/
def WALL_NORMAL_ELEVATION_MAX : ℚ := 873/10000

/-- Slide elevation lower bound, f32 literal `-0.6981`. -/
def SLIDE_NORMAL_ELEVATION_MIN : ℚ := -6981/10000

/-- Slide elevation upper bound, f32 literal `0.6981`. -/
def SLIDE_NORMAL_ELEVATION_MAX : ℚ := 6981/10000

/-- Componentwise sum, `impl Add for Vec3`. -/
def QVec3.add (a b : QVec3) : QVec3 :=
  ⟨a.x + b.x, a.y + b.y, a.z + b.z⟩

/-- Componentwise difference, `impl Sub for Vec3`. -/
def QVec3.sub (a b : QVec3) : QVec3 :=
  ⟨a.x - b.x, a.y - b.y, a.z - b.z⟩

/-- Scalar multiple, `impl Mul<f32> for Vec3`. -/
def QVec3.smul (a : QVec3) (r : ℚ) : QVec3 :=
  ⟨a.x * r, a.y * r, a.z * r⟩

/-- Dot product, `Vec3::dot`. -/
def QVec3.dot (a b : QVec3) : ℚ :=
  a.x * b.x + a.y * b.y + a.z * b.z

/-- Length `Vec3::len`; `sq` models machine `f32::sqrt`. -/
def QVec3.qlen (sq : ℚ → ℚ) (a : QVec3) : ℚ :=
  sq (a.x * a.x + a.y * a.y + a.z * a.z)

/-- Normalisation `Vec3::normalise`: zero length yields `Vec3::default()`. -/
def QVec3.normalise (sq : ℚ → ℚ) (a : QVec3) : QVec3 :=
  let length := sq (a.x * a.x + a.y * a.y + a.z * a.z)
  if length = 0 then ⟨0, 0, 0⟩ else ⟨a.x / length, a.y / length, a.z / length⟩

/-- Classified triangle (`Surface` in `collisiondata/mod.rs`). -/
structure QSurface where
  point_0 : QVec3
  point_1 : QVec3
  point_2 : QVec3
  normal : QVec3
deriving DecidableEq, Repr

/-- Zero surface, `Surface::default()`. -/
def QSurface.empty : QSurface :=
  ⟨⟨0, 0, 0⟩, ⟨0, 0, 0⟩, ⟨0, 0, 0⟩, ⟨0, 0, 0⟩⟩

/-- Rectangle approximation of a near-vertical polygon (`Wall`). -/
structure QWall where
  bottom_left : QVec3
  top_right : QVec3
  normal : QVec3
deriving DecidableEq, Repr

/-- Wall constructor `Wall::from_bottom_left_to_top_right`
(`collisiondata/mod.rs` lines 88-104). -/
def QWall.fromBottomLeftToTopRight (sq : ℚ → ℚ) (bottomLeft topRight : QVec3) : QWall :=
  let bottomEdge : QVec3 := ⟨topRight.x - bottomLeft.x, 0, topRight.z - bottomLeft.z⟩
  let normalDirection : QVec3 := ⟨-bottomEdge.z, 0, bottomEdge.x⟩
  ⟨bottomLeft, topRight, normalDirection.normalise sq⟩

/-- Per-object collision set (`CollisionData`); the name field is omitted. -/
structure CollisionData where
  extent_x : ℚ × ℚ
  extent_y : ℚ × ℚ
  extent_z : ℚ × ℚ
  traction_surfaces : List QSurface
  sliding_surfaces : List QSurface
  walls : List QWall
deriving DecidableEq, Repr

/-- Fresh collision set, `CollisionData::new`. -/
def CollisionData.new : CollisionData :=
  ⟨(0, 0), (0, 0), (0, 0), [], [], []⟩

/-- Minimum of three, `ModelFactory::min_of_3` (first-seen on ties). -/
def minOf3 (v0 v1 v2 : ℚ) : ℚ :=
  let m := if v1 < v0 then v1 else v0
  if v2 < m then v2 else m

/-- Maximum of three, `ModelFactory::max_of_3`. -/
def maxOf3 (v0 v1 v2 : ℚ) : ℚ :=
  let m := if v1 > v0 then v1 else v0
  if v2 > m then v2 else m

/-- Minimum of four, `ModelFactory::min_of_4`. -/
def minOf4 (v0 v1 v2 v3 : ℚ) : ℚ :=
  let m := if v1 < v0 then v1 else v0
  let m2 := if v2 < m then v2 else m
  if v3 < m2 then v3 else m2

/-- Maximum of four, `ModelFactory::max_of_4`. -/
def maxOf4 (v0 v1 v2 v3 : ℚ) : ℚ :=
  let m := if v1 > v0 then v1 else v0
  let m2 := if v2 > m then v2 else m
  if v3 > m2 then v3 else m2

/-- Support-point query `ModelFactory::max_point_of_3_in_direction`: index of the
point with the greatest dot product (strict `>`, so ties keep the earlier index). -/
def maxPointOf3InDirection (direction p0 p1 p2 : QVec3) : Nat :=
  let d0 := p0.dot direction
  let d1 := p1.dot direction
  let d2 := p2.dot direction
  let i1 := if d1 > d0 then 1 else 0
  let m1 := if d1 > d0 then d1 else d0
  if d2 > m1 then 2 else i1

/-- Support-point query `ModelFactory::max_point_of_4_in_direction`. -/
def maxPointOf4InDirection (direction p0 p1 p2 p3 : QVec3) : Nat :=
  let d0 := p0.dot direction
  let d1 := p1.dot direction
  let d2 := p2.dot direction
  let d3 := p3.dot direction
  let i1 := if d1 > d0 then 1 else 0
  let m1 := if d1 > d0 then d1 else d0
  let i2 := if d2 > m1 then 2 else i1
  let m2 := if d2 > m1 then d2 else m1
  if d3 > m2 then 3 else i2

/-- Selection of one of three points by index (models `points[i]` for `[&Vec3; 3]`). -/
def pick3 (i : Nat) (p0 p1 p2 : QVec3) : QVec3 :=
  if i = 0 then p0 else if i = 1 then p1 else p2

/-- Selection of one of four points by index. -/
def pick4 (i : Nat) (p0 p1 p2 p3 : QVec3) : QVec3 :=
  if i = 0 then p0 else if i = 1 then p1 else if i = 2 then p2 else p3

/-- Triangle average normal computed in `add_collisions_for_index_sets`
(componentwise mean of the three vertex normals, not renormalised). -/
def avgNormal (v0 v1 v2 : Vrtx) : QVec3 :=
  ⟨(v0.normal.x + v1.normal.x + v2.normal.x) / 3,
   (v0.normal.y + v1.normal.y + v2.normal.y) / 3,
   (v0.normal.z + v1.normal.z + v2.normal.z) / 3⟩

/-- Candidate surface for fan triangle `(v0, v1, v2)`. -/
def surfaceOfTriple (v0 v1 v2 : Vrtx) : QSurface :=
  ⟨v0.position, v1.position, v2.position, avgNormal v0 v1 v2⟩

/-- Elevation angle of a normal: `asin(normal.y / |normal|)`; `sq` and `asq`
model machine `sqrt` and `asin`. -/
def elevationOf (sq asq : ℚ → ℚ) (n : QVec3) : ℚ :=
  asq (n.y / sq (n.x * n.x + n.y * n.y + n.z * n.z))

/-- Candidate fan triangle `i` of a polygon with its elevation angle
(`modelfactory/mod.rs` lines 87-108). -/
def candidateAt (sq asq : ℚ → ℚ) (vertices : List Vrtx) (i : Nat) : QSurface × ℚ :=
  let v0 := vertices.getD 0 Vrtx.empty
  let v1 := vertices.getD (i + 1) Vrtx.empty
  let v2 := vertices.getD (i + 2) Vrtx.empty
  let s := surfaceOfTriple v0 v1 v2
  (s, elevationOf sq asq s.normal)

/-- Wall built from a single wall-range triangle (`modelfactory/mod.rs` lines 143-158). -/
def mkTriWall (sq : ℚ → ℚ) (s : QSurface) : QWall :=
  let approxWallNormal : QVec3 := ⟨s.normal.x, 0, s.normal.z⟩
  let leftDirection : QVec3 := ⟨-approxWallNormal.z, 0, approxWallNormal.x⟩
  let rightDirection : QVec3 := ⟨approxWallNormal.z, 0, -approxWallNormal.x⟩
  let leftPoint := pick3 (maxPointOf3InDirection leftDirection s.point_0 s.point_1 s.point_2)
    s.point_0 s.point_1 s.point_2
  let rightPoint := pick3 (maxPointOf3InDirection rightDirection s.point_0 s.point_1 s.point_2)
    s.point_0 s.point_1 s.point_2
  let leftExtreme : QVec3 := ⟨leftPoint.x, minOf3 s.point_0.y s.point_1.y s.point_2.y, leftPoint.z⟩
  let rightExtreme : QVec3 := ⟨rightPoint.x, maxOf3 s.point_0.y s.point_1.y s.point_2.y, rightPoint.z⟩
  QWall.fromBottomLeftToTopRight sq leftExtreme rightExtreme

/-- Wall built in the merged-quad special case from the four original corners
(`modelfactory/mod.rs` lines 120-137). -/
def mkQuadWall (sq : ℚ → ℚ) (s0 s1 : QSurface) : QWall :=
  let p0 := s0.point_0
  let p1 := s0.point_1
  let p2 := s1.point_1
  let p3 := s1.point_2
  let mean := (s0.normal.add s1.normal).smul (1/2)
  let approxWallNormal : QVec3 := ⟨mean.x, 0, mean.z⟩
  let leftDirection : QVec3 := ⟨-approxWallNormal.z, 0, approxWallNormal.x⟩
  let rightDirection : QVec3 := ⟨approxWallNormal.z, 0, -approxWallNormal.x⟩
  let leftPoint := pick4 (maxPointOf4InDirection leftDirection p0 p1 p2 p3) p0 p1 p2 p3
  let rightPoint := pick4 (maxPointOf4InDirection rightDirection p0 p1 p2 p3) p0 p1 p2 p3
  let leftExtreme : QVec3 := ⟨leftPoint.x, minOf4 p0.y p1.y p2.y p3.y, leftPoint.z⟩
  let rightExtreme : QVec3 := ⟨rightPoint.x, maxOf4 p0.y p1.y p2.y p3.y, rightPoint.z⟩
  QWall.fromBottomLeftToTopRight sq leftExtreme rightExtreme

/-- Per-triangle classification step, embedding the if-chain of
`modelfactory/mod.rs` lines 141-164: wall range first (strict bounds), then
slide range, else traction. -/
def classifyStep (sq : ℚ → ℚ) (cd : CollisionData) (p : QSurface × ℚ) : CollisionData :=
  if p.2 > WALL_NORMAL_ELEVATION_MIN ∧ p.2 < WALL_NORMAL_ELEVATION_MAX then
    { cd with walls := cd.walls ++ [mkTriWall sq p.1] }
  else if p.2 < SLIDE_NORMAL_ELEVATION_MAX ∧ p.2 > SLIDE_NORMAL_ELEVATION_MIN then
    { cd with sliding_surfaces := cd.sliding_surfaces ++ [p.1] }
  else
    { cd with traction_surfaces := cd.traction_surfaces ++ [p.1] }

/-- Quad-merge test of `add_collisions_for_index_sets` (lines 110-117): exactly
two candidate triangles and both elevation angles strictly inside the wall range. -/
def makeWallFromQuad (allSurfaces : List (QSurface × ℚ)) : Prop :=
  if allSurfaces.length = 2 then
    let angle1 := (allSurfaces.getD 0 (QSurface.empty, 0)).2
    let angle2 := (allSurfaces.getD 1 (QSurface.empty, 0)).2
    angle1 > WALL_NORMAL_ELEVATION_MIN ∧ angle1 < WALL_NORMAL_ELEVATION_MAX ∧
      angle2 > WALL_NORMAL_ELEVATION_MIN ∧ angle2 < WALL_NORMAL_ELEVATION_MAX
  else False

instance (l : List (QSurface × ℚ)) : Decidable (makeWallFromQuad l) := by
  unfold makeWallFromQuad; infer_instance

/-- Collision classifier core `ModelFactory::add_collisions_for_index_sets`
(`modelfactory/mod.rs` lines 75-165), after vertex resolution.  Fewer than three
vertices: `polygon_count < 1`, early return.  Exactly two candidate triangles
both in wall range: single merged quad wall.  Otherwise each candidate is
classified independently. -/
def addCollisionsCore (sq asq : ℚ → ℚ) (vertices : List Vrtx)
    (cd : CollisionData) : CollisionData :=
  if vertices.length < 3 then cd
  else
    let polygonCount := vertices.length - 2
    let allSurfaces := (List.range polygonCount).map (candidateAt sq asq vertices)
    if makeWallFromQuad allSurfaces then
      { cd with
        walls := cd.walls ++
          [mkQuadWall sq (allSurfaces.getD 0 (QSurface.empty, 0)).1 (allSurfaces.getD 1 (QSurface.empty, 0)).1] }
    else
      allSurfaces.foldl (classifyStep sq) cd

/-- Resolution of a whole reference list (the `.map(...).collect()` with `unwrap`
inside `add_collisions_for_index_sets`): `none` as soon as one triple fails. -/
def resolveAll (raw : RawModelData) : List IndexSet → Option (List Vrtx)
  | [] => some []
  | s :: t => do
      let v ← vertexFromIndices raw s
      let vs ← resolveAll raw t
      pure (v :: vs)

/-- Collision classifier entry point: the source first resolves every reference
triple (`unwrap`, hence `Option` here), then runs the core. -/
def addCollisionsForIndexSets (sq asq : ℚ → ℚ) (raw : RawModelData)
    (indexSets : List IndexSet) (cd : CollisionData) : Option CollisionData := do
  let vertices ← resolveAll raw indexSets
  pure (addCollisionsCore sq asq vertices cd)

/-- Zero wall, `Wall::default()`. -/
def QWall.empty : QWall :=
  ⟨⟨0, 0, 0⟩, ⟨0, 0, 0⟩, ⟨0, 0, 0⟩⟩

/-- Duplicate test between two walls, embedding the four `continue` guards of
`CollisionData::remove_wall_duplicates` (`collisiondata/mod.rs` lines 144-159):
both corner heights within `0.01`, and both XZ-projected corner displacements
of length at most `0.01` (length via `sq`, the machine `sqrt` model). -/
def wallsMatch (sq : ℚ → ℚ) (w1 w2 : QWall) : Bool :=
  if |w1.bottom_left.y - w2.bottom_left.y| > 1/100 then false
  else if |w1.top_right.y - w2.top_right.y| > 1/100 then false
  else
    let leftToLeft : QVec3 := { w1.bottom_left.sub w2.bottom_left with y := 0 }
    if leftToLeft.qlen sq > 1/100 then false
    else
      let rightToRight : QVec3 := { w1.top_right.sub w2.top_right with y := 0 }
      if rightToRight.qlen sq > 1/100 then false
      else true

/-- Index-collection pass of `remove_wall_duplicates`: for every `index` and
every later `scan_index`, push `index` (the EARLIER index) once per match. -/
def collectRemovals (sq : ℚ → ℚ) (walls : List QWall) : List Nat :=
  (List.range (walls.length - 1)).flatMap (fun i =>
    ((List.range (walls.length - (i + 1))).map (fun d => i + 1 + d)).flatMap (fun j =>
      if wallsMatch sq (walls.getD i QWall.empty) (walls.getD j QWall.empty) then [i] else []))

/-- Positional removal `Vec::remove` (panics when out of bounds, `none` here). -/
def removeAt (ws : List QWall) (i : Nat) : Option (List QWall) :=
  if i < ws.length then some (ws.eraseIdx i) else none

/-- Sequential removal of the collected indices. -/
def removeAll : List QWall → List Nat → Option (List QWall)
  | ws, [] => some ws
  | ws, i :: t => do
      let ws2 ← removeAt ws i
      removeAll ws2 t

/-- Wall deduplication `CollisionData::remove_wall_duplicates`
(`collisiondata/mod.rs` lines 135-168): collect matching earlier indices, then
remove them in reversed push order. -/
def removeWallDuplicates (sq : ℚ → ℚ) (cd : CollisionData) : Option CollisionData :=
  if cd.walls.length < 2 then some cd
  else
    (removeAll cd.walls (collectRemovals sq cd.walls).reverse).map
      (fun ws => { cd with walls := ws })

/-- Running min/max accumulator of `CollisionData::find_extents`. -/
structure Extents where
  x_min : ℚ
  x_max : ℚ
  y_min : ℚ
  y_max : ℚ
  z_min : ℚ
  z_max : ℚ
deriving DecidableEq, Repr

/-- Per-point accumulator update: the six `if` comparisons of `find_extents`. -/
def updatePoint (e : Extents) (p : QVec3) : Extents :=
  { x_min := if p.x < e.x_min then p.x else e.x_min
    x_max := if p.x > e.x_max then p.x else e.x_max
    y_min := if p.y < e.y_min then p.y else e.y_min
    y_max := if p.y > e.y_max then p.y else e.y_max
    z_min := if p.z < e.z_min then p.z else e.z_min
    z_max := if p.z > e.z_max then p.z else e.z_max }

/-- Surface scan: all three corner points. -/
def updateSurface (e : Extents) (s : QSurface) : Extents :=
  [s.point_0, s.point_1, s.point_2].foldl updatePoint e

/-- Wall scan: the source iterates over `[&wall.bottom_left, &wall.bottom_left]`,
so `bottom_left` is visited twice and `top_right` never. -/
def updateWall (e : Extents) (w : QWall) : Extents :=
  [w.bottom_left, w.bottom_left].foldl updatePoint e

/-- Extent computation `CollisionData::find_extents`
(`collisiondata/mod.rs` lines 170-253): all six accumulators seeded at `0.0`,
then traction surfaces, sliding surfaces, and walls scanned in order. -/
def findExtents (cd : CollisionData) : CollisionData :=
  let e0 : Extents := ⟨0, 0, 0, 0, 0, 0⟩
  let e1 := cd.traction_surfaces.foldl updateSurface e0
  let e2 := cd.sliding_surfaces.foldl updateSurface e1
  let e3 := cd.walls.foldl updateWall e2
  { cd with
    extent_x := (e3.x_min, e3.x_max)
    extent_y := (e3.y_min, e3.y_max)
    extent_z := (e3.z_min, e3.z_max) }

/-- One byte of a modelled byte stream: out-of-range positions read as 0 and
entries are reduced `% 256` (a machine byte is always below 256). -/
def byteAt (b : List Nat) (i : Nat) : Nat :=
  b.getD i 0 % 256

/-- Little-endian bytes of a u16 (`u16::to_ne_bytes`, native order taken LE). -/
def u16b (n : Nat) : List Nat :=
  [n % 256, n / 256 % 256]

/-- Little-endian bytes of a u32 (`u32::to_ne_bytes` / one f32 bit pattern). -/
def u32b (n : Nat) : List Nat :=
  [n % 256, n / 256 % 256, n / 65536 % 256, n / 16777216 % 256]

/-- Little-endian u16 read at a byte offset. -/
def readU16 (b : List Nat) (off : Nat) : Nat :=
  byteAt b off + 256 * byteAt b (off + 1)

/-- Little-endian u32 read at a byte offset. -/
def readU32 (b : List Nat) (off : Nat) : Nat :=
  byteAt b off + 256 * byteAt b (off + 1) + 65536 * byteAt b (off + 2) +
    16777216 * byteAt b (off + 3)

/-- Interleaved vertex at the bit-pattern level: each f32 field as its 32-bit
word.  Field order matches `#[repr(C)] Vertex`: position, normal, tex_coord. -/
structure WVertex where
  px : Nat
  py : Nat
  pz : Nat
  nx : Nat
  ny : Nat
  nz : Nat
  tu : Nat
  tv : Nat
deriving DecidableEq, Repr

/-- Mesh object at the bit-pattern level, for the binary codec. -/
structure ModelBits where
  interleaved_vertices : List WVertex
  face_indices : List Nat
deriving DecidableEq, Repr

/-- All 32 bytes of a vertex (the `(true, true)` transmute in `write_data_to_file`). -/
def vertexBytes32 (v : WVertex) : List Nat :=
  u32b v.px ++ u32b v.py ++ u32b v.pz ++ u32b v.nx ++ u32b v.ny ++ u32b v.nz ++
    u32b v.tu ++ u32b v.tv

/-- Position+normal bytes (`Vertex::positions_normals`, the `(true, false)` case). -/
def vertexBytes24 (v : WVertex) : List Nat :=
  u32b v.px ++ u32b v.py ++ u32b v.pz ++ u32b v.nx ++ u32b v.ny ++ u32b v.nz

/-- Position+texcoord bytes (`Vertex::positions_tex_coords`, the `(false, true)` case). -/
def vertexBytes20 (v : WVertex) : List Nat :=
  u32b v.px ++ u32b v.py ++ u32b v.pz ++ u32b v.tu ++ u32b v.tv

/-- Position bytes (`Vertex::positions`, the `(false, false)` case). -/
def vertexBytes12 (v : WVertex) : List Nat :=
  u32b v.px ++ u32b v.py ++ u32b v.pz

/-- Index value at position `i` of the flattened face-index list; beyond the end
it is whatever adjacent memory holds, modelled by the `junk` parameter. -/
def idxAt (xs : List Nat) (junk : Nat → Nat) (i : Nat) : Nat :=
  if i < xs.length then xs.getD i 0 else junk i

/-- Bytes emitted for ONE `u16` entry of `face_indices` by `write_data_to_file`:
the source transmutes `&u16` to `&[u8; 6]`, so each entry is written as six
bytes — its own two bytes followed by the bytes of the next two entries (or of
adjacent memory past the end of the buffer). -/
def facesChunk (xs : List Nat) (junk : Nat → Nat) (i : Nat) : List Nat :=
  u16b (idxAt xs junk i) ++ u16b (idxAt xs junk (i + 1)) ++ u16b (idxAt xs junk (i + 2))

/-- Face-section bytes starting at entry `i`, for `n` remaining entries. -/
def facesN (xs : List Nat) (junk : Nat → Nat) : Nat → Nat → List Nat
  | _, 0 => []
  | i, n + 1 => facesChunk xs junk i ++ facesN xs junk (i + 1) n

/-- Face-section bytes of the whole `face_indices` sequence. -/
def facesBytes (xs : List Nat) (junk : Nat → Nat) : List Nat :=
  facesN xs junk 0 xs.length

/-- Mesh artifact writer `Model::write_data_to_file` (`model/mod.rs` lines
134-171): version, the two `i32`-encoded flags, `u32` vertex count (the length
cast `as u32`), the vertex bytes selected by the flags, then a `u32` count that
is `face_indices.len()` (three per face), then six bytes per `u16` entry. -/
def modelWriteBytes (m : ModelBits) (includeNormals includeTexCoords : Bool)
    (junk : Nat → Nat) : List Nat :=
  u32b 1 ++
  u32b (if includeNormals then 1 else 0) ++
  u32b (if includeTexCoords then 1 else 0) ++
  u32b (m.interleaved_vertices.length % 4294967296) ++
  (match includeNormals, includeTexCoords with
   | true, true => m.interleaved_vertices.flatMap vertexBytes32
   | true, false => m.interleaved_vertices.flatMap vertexBytes24
   | false, true => m.interleaved_vertices.flatMap vertexBytes20
   | false, false => m.interleaved_vertices.flatMap vertexBytes12) ++
  u32b (m.face_indices.length % 4294967296) ++
  facesBytes m.face_indices junk

/-- Vertex record decoded at a byte offset (32 bytes, 8 words). -/
def vertexAt (b : List Nat) (off : Nat) : WVertex :=
  ⟨readU32 b off, readU32 b (off + 4), readU32 b (off + 8), readU32 b (off + 12),
   readU32 b (off + 16), readU32 b (off + 20), readU32 b (off + 24), readU32 b (off + 28)⟩

/-- Mesh artifact decoder `Model::from_bytes` (`model/mod.rs` lines 173-215):
version and flag checks (panic modelled as `none`), `u32` vertex count at
offset 12, 32-byte vertices from offset 16, then a face count `fc` at offset
`(16 + vc * 32)` (computed in `u32` arithmetic in the source) followed by
`fc * 3` u16 entries.  Out-of-bounds slicing or raw-pointer reads are `none`. -/
def modelFromBytes (b : List Nat) : Option ModelBits :=
  if 12 ≤ b.length then
    if readU32 b 0 ≠ 1 then none
    else if readU32 b 4 = 0 then none
    else if readU32 b 8 = 0 then none
    else if 16 ≤ b.length then
      let vc := readU32 b 12
      if 16 + vc * 32 ≤ b.length then
        let vertices := (List.range vc).map (fun i => vertexAt b (16 + 32 * i))
        let fcOff := (16 + vc * 8 * 4) % 4294967296
        if fcOff + 4 ≤ b.length then
          let fc := readU32 b fcOff
          if fcOff + 4 + fc * 3 * 2 ≤ b.length then
            some ⟨vertices, (List.range (fc * 3)).map (fun i => readU16 b (fcOff + 4 + 2 * i))⟩
          else none
        else none
      else none
    else none
  else none

/-- Float triple at the bit-pattern level (one `Vec3` of the collision file). -/
structure WVec3 where
  x : Nat
  y : Nat
  z : Nat
deriving DecidableEq, Repr

/-- Surface record at the bit-pattern level (48 bytes: 4 × Vec3). -/
structure WSurface where
  point_0 : WVec3
  point_1 : WVec3
  point_2 : WVec3
  normal : WVec3
deriving DecidableEq, Repr

/-- Wall record at the bit-pattern level (36 bytes: 3 × Vec3). -/
structure WWall where
  bottom_left : WVec3
  top_right : WVec3
  normal : WVec3
deriving DecidableEq, Repr

/-- Collision data at the bit-pattern level, for the binary codec. -/
structure CollisionBits where
  extent_x : Nat × Nat
  extent_y : Nat × Nat
  extent_z : Nat × Nat
  traction_surfaces : List WSurface
  sliding_surfaces : List WSurface
  walls : List WWall
deriving DecidableEq, Repr

/-- Bytes of one Vec3 record. -/
def wvec3Bytes (v : WVec3) : List Nat :=
  u32b v.x ++ u32b v.y ++ u32b v.z

/-- Bytes of one Surface record (the 48-byte transmute). -/
def wsurfaceBytes (s : WSurface) : List Nat :=
  wvec3Bytes s.point_0 ++ wvec3Bytes s.point_1 ++ wvec3Bytes s.point_2 ++ wvec3Bytes s.normal

/-- Bytes of one Wall record (the 36-byte transmute). -/
def wwallBytes (w : WWall) : List Nat :=
  wvec3Bytes w.bottom_left ++ wvec3Bytes w.top_right ++ wvec3Bytes w.normal

/-- Collision artifact writer `CollisionData::write_data_to_file`
(`collisiondata/mod.rs` lines 257-288): version, six extent floats, then three
length-prefixed record arrays (traction surfaces, sliding surfaces, walls). -/
def collisionWriteBytes (c : CollisionBits) : List Nat :=
  u32b 1 ++
  u32b c.extent_x.1 ++ u32b c.extent_x.2 ++
  u32b c.extent_y.1 ++ u32b c.extent_y.2 ++
  u32b c.extent_z.1 ++ u32b c.extent_z.2 ++
  u32b (c.traction_surfaces.length % 4294967296) ++
  c.traction_surfaces.flatMap wsurfaceBytes ++
  u32b (c.sliding_surfaces.length % 4294967296) ++
  c.sliding_surfaces.flatMap wsurfaceBytes ++
  u32b (c.walls.length % 4294967296) ++
  c.walls.flatMap wwallBytes

/-- Consuming u32 read modelling one 4-byte pointer advance of `from_bytes`;
`none` models reading past the end of the buffer. -/
def takeU32 : List Nat → Option (Nat × List Nat)
  | b0 :: b1 :: b2 :: b3 :: r =>
      some (b0 % 256 + 256 * (b1 % 256) + 65536 * (b2 % 256) + 16777216 * (b3 % 256), r)
  | _ => none

/-- Consuming Vec3 read (three words). -/
def takeWVec3 (b : List Nat) : Option (WVec3 × List Nat) := do
  let (x, b) ← takeU32 b
  let (y, b) ← takeU32 b
  let (z, b) ← takeU32 b
  pure (⟨x, y, z⟩, b)

/-- Consuming Surface read (48 bytes). -/
def takeWSurface (b : List Nat) : Option (WSurface × List Nat) := do
  let (p0, b) ← takeWVec3 b
  let (p1, b) ← takeWVec3 b
  let (p2, b) ← takeWVec3 b
  let (n, b) ← takeWVec3 b
  pure (⟨p0, p1, p2, n⟩, b)

/-- Consuming Wall read (36 bytes). -/
def takeWWall (b : List Nat) : Option (WWall × List Nat) := do
  let (bl, b) ← takeWVec3 b
  let (tr, b) ← takeWVec3 b
  let (n, b) ← takeWVec3 b
  pure (⟨bl, tr, n⟩, b)

/-- Consuming read of `n` fixed-size records (`slice::from_raw_parts` + copy). -/
def takeRecords {α : Type} (take1 : List Nat → Option (α × List Nat)) :
    Nat → List Nat → Option (List α × List Nat)
  | 0, b => some ([], b)
  | n + 1, b => do
      let (a, b2) ← take1 b
      let (as_, b3) ← takeRecords take1 n b2
      pure (a :: as_, b3)

/-- Collision artifact decoder `CollisionData::from_bytes`
(`collisiondata/mod.rs` lines 292-343): version check (panic is `none`), six
extent floats, then the three length-prefixed record arrays. -/
def collisionFromBytes (b : List Nat) : Option CollisionBits := do
  let (version, b) ← takeU32 b
  if version ≠ 1 then none
  else do
    let (xMin, b) ← takeU32 b
    let (xMax, b) ← takeU32 b
    let (yMin, b) ← takeU32 b
    let (yMax, b) ← takeU32 b
    let (zMin, b) ← takeU32 b
    let (zMax, b) ← takeU32 b
    let (tc, b) ← takeU32 b
    let (traction, b) ← takeRecords takeWSurface tc b
    let (sc, b) ← takeU32 b
    let (sliding, b) ← takeRecords takeWSurface sc b
    let (wc, b) ← takeU32 b
    let (walls, _) ← takeRecords takeWWall wc b
    pure ⟨(xMin, xMax), (yMin, yMax), (zMin, zMax), traction, sliding, walls⟩

/-- Open wall interval of the spec: elevation strictly between `-0.0873` and `0.0873`. -/
def inWallRange (a : ℚ) : Prop :=
  WALL_NORMAL_ELEVATION_MIN < a ∧ a < WALL_NORMAL_ELEVATION_MAX

/-- Open slide interval of the spec: elevation strictly between `-0.6981` and `0.6981`. -/
def inSlideRange (a : ℚ) : Prop :=
  SLIDE_NORMAL_ELEVATION_MIN < a ∧ a < SLIDE_NORMAL_ELEVATION_MAX

instance (a : ℚ) : Decidable (inWallRange a) := by
  unfold inWallRange; infer_instance

instance (a : ℚ) : Decidable (inSlideRange a) := by
  unfold inSlideRange; infer_instance

/-- Resolution preserves the reference count. -/
theorem resolveAll_length (raw : RawModelData) :
    ∀ (sets : List IndexSet) (vs : List Vrtx), resolveAll raw sets = some vs →
      vs.length = sets.length := by
  intro sets
  induction sets with
  | nil => intro vs h; simp [resolveAll] at h; simp [← h]
  | cons s t ih =>
      intro vs h
      simp only [resolveAll, Option.bind_eq_bind, Option.bind_eq_some] at h
      obtain ⟨v, _, vs2, h2, hcons⟩ := h
      obtain rfl : v :: vs2 = vs := by simpa using hcons
      simp [ih vs2 h2]

/-- C10: a reference list with fewer than three triples makes the collision
classifier return early, leaving the collision data completely unchanged
(no surface, wall, or extent field touched), provided resolution succeeds. -/
theorem collisions_small_input_frame_c10 (sq asq : ℚ → ℚ) (raw : RawModelData)
    (indexSets : List IndexSet) (cd : CollisionData) (vs : List Vrtx)
    (hlen : indexSets.length < 3)
    (hres : resolveAll raw indexSets = some vs) :
    addCollisionsForIndexSets sq asq raw indexSets cd = some cd := by
  have hvl : vs.length = indexSets.length := resolveAll_length raw indexSets vs hres
  simp only [addCollisionsForIndexSets, hres, Option.bind_eq_bind, Option.some_bind,
    Option.pure_def, Option.some.injEq]
  rw [addCollisionsCore, if_pos (by omega)]

/-- Witness for C10 at a concrete two-triple polygon. -/
theorem collisions_small_input_frame_c10_witness :
    ([(⟨0, 0, 0⟩ : IndexSet), ⟨0, 0, 0⟩].length < 3) ∧
    (resolveAll ⟨[⟨0, 0, 0⟩], [⟨0, 0⟩], [⟨0, 0, 0⟩]⟩ [⟨0, 0, 0⟩, ⟨0, 0, 0⟩] =
      some [Vrtx.empty, Vrtx.empty]) ∧
    addCollisionsForIndexSets (fun q => q) (fun q => q) ⟨[⟨0, 0, 0⟩], [⟨0, 0⟩], [⟨0, 0, 0⟩]⟩
      [⟨0, 0, 0⟩, ⟨0, 0, 0⟩] CollisionData.new = some CollisionData.new :=
  ⟨by decide, by decide,
    collisions_small_input_frame_c10 (fun q => q) (fun q => q)
      ⟨[⟨0, 0, 0⟩], [⟨0, 0⟩], [⟨0, 0, 0⟩]⟩ [⟨0, 0, 0⟩, ⟨0, 0, 0⟩] CollisionData.new
      [Vrtx.empty, Vrtx.empty] (by decide) (by decide)⟩

/-- The classification step rephrased with the spec's open intervals: wall range
is tested first, then slide range, else traction. -/
theorem classifyStep_eq (sq : ℚ → ℚ) (cd : CollisionData) (p : QSurface × ℚ) :
    classifyStep sq cd p =
      (if inWallRange p.2 then
        { cd with walls := cd.walls ++ [mkTriWall sq p.1] }
      else if inSlideRange p.2 then
        { cd with sliding_surfaces := cd.sliding_surfaces ++ [p.1] }
      else
        { cd with traction_surfaces := cd.traction_surfaces ++ [p.1] }) := by
  unfold classifyStep inWallRange inSlideRange
  split_ifs <;> first
    | rfl
    | tauto

/-- Folding the classification step over a list of candidates appends, to each
of the three collections, exactly the candidates its interval selects (wall
range first, then slide range, else traction), and leaves the extents alone. -/
theorem foldl_classify (sq : ℚ → ℚ) (l : List (QSurface × ℚ)) : ∀ cd : CollisionData,
    l.foldl (classifyStep sq) cd =
      { cd with
        walls := cd.walls ++
          (l.filter (fun p => decide (inWallRange p.2))).map (fun p => mkTriWall sq p.1),
        sliding_surfaces := cd.sliding_surfaces ++
          (l.filter (fun p => decide (¬ inWallRange p.2 ∧ inSlideRange p.2))).map Prod.fst,
        traction_surfaces := cd.traction_surfaces ++
          (l.filter (fun p => decide (¬ inWallRange p.2 ∧ ¬ inSlideRange p.2))).map Prod.fst } := by
  induction l with
  | nil => intro cd; simp
  | cons a t ih =>
      intro cd
      rw [List.foldl_cons, ih, classifyStep_eq]
      by_cases hw : inWallRange a.2
      · simp [List.filter_cons, hw, List.append_assoc]
      · by_cases hs : inSlideRange a.2
        · simp [List.filter_cons, hw, hs, List.append_assoc]
        · simp [List.filter_cons, hw, hs, List.append_assoc]

/-- The quad-merge test holds exactly when there are two candidates and both
angles are strictly inside the open wall interval. -/
theorem makeWallFromQuad_iff (l : List (QSurface × ℚ)) :
    makeWallFromQuad l ↔
      l.length = 2 ∧ inWallRange (l.getD 0 (QSurface.empty, 0)).2 ∧
        inWallRange (l.getD 1 (QSurface.empty, 0)).2 := by
  unfold makeWallFromQuad inWallRange
  split_ifs with h
  · simp only [h, true_and]; tauto
  · simp [h]

/-- In the quad-merge case the core pushes exactly one wall, built from the two
candidate surfaces, and touches nothing else. -/
theorem addCollisionsCore_quad (sq asq : ℚ → ℚ) (vertices : List Vrtx)
    (cd : CollisionData) (h4 : vertices.length = 4)
    (hw0 : inWallRange (candidateAt sq asq vertices 0).2)
    (hw1 : inWallRange (candidateAt sq asq vertices 1).2) :
    addCollisionsCore sq asq vertices cd =
      { cd with
        walls := cd.walls ++
          [mkQuadWall sq (candidateAt sq asq vertices 0).1 (candidateAt sq asq vertices 1).1] } := by
  have hr : List.range (vertices.length - 2) = [0, 1] := by rw [h4]; decide
  simp only [addCollisionsCore, hr]
  rw [if_neg (by omega)]
  rw [if_pos]
  · simp
  · rw [makeWallFromQuad_iff]
    refine ⟨by simp, ?_, ?_⟩
    · simpa using hw0
    · simpa using hw1

/-- Outside the quad-merge case the core just folds the classification step
over all candidates. -/
theorem addCollisionsCore_noquad (sq asq : ℚ → ℚ) (vertices : List Vrtx)
    (cd : CollisionData) (h3 : 3 ≤ vertices.length)
    (hq : ¬(vertices.length = 4 ∧ inWallRange (candidateAt sq asq vertices 0).2 ∧
            inWallRange (candidateAt sq asq vertices 1).2)) :
    addCollisionsCore sq asq vertices cd =
      ((List.range (vertices.length - 2)).map (candidateAt sq asq vertices)).foldl
        (classifyStep sq) cd := by
  simp only [addCollisionsCore]
  rw [if_neg (by omega)]
  rw [if_neg]
  rw [makeWallFromQuad_iff]
  intro ⟨hlen2, hg0, hg1⟩
  have h4 : vertices.length = 4 := by
    simp at hlen2; omega
  apply hq
  refine ⟨h4, ?_, ?_⟩
  · have hr : List.range (vertices.length - 2) = [0, 1] := by rw [h4]; decide
    rw [hr] at hg0; simpa using hg0
  · have hr : List.range (vertices.length - 2) = [0, 1] := by rw [h4]; decide
    rw [hr] at hg1; simpa using hg1

/-- C4: classification tests the wall range first as the strict open interval
`(-0.0873, 0.0873)`, then the slide range as the strict open interval
`(-0.6981, 0.6981)`, else traction; and a triangle whose computed elevation is
exactly `0.0873` rad is classified as a sliding surface, not a wall. -/
theorem classification_order_c4 (sq asq : ℚ → ℚ) (vertices : List Vrtx)
    (cd : CollisionData) (hlen : vertices.length = 3)
    (hangle : (candidateAt sq asq vertices 0).2 = WALL_NORMAL_ELEVATION_MAX) :
    (∀ (cd2 : CollisionData) (p : QSurface × ℚ),
      classifyStep sq cd2 p =
        (if inWallRange p.2 then
          { cd2 with walls := cd2.walls ++ [mkTriWall sq p.1] }
        else if inSlideRange p.2 then
          { cd2 with sliding_surfaces := cd2.sliding_surfaces ++ [p.1] }
        else
          { cd2 with traction_surfaces := cd2.traction_surfaces ++ [p.1] })) ∧
    addCollisionsCore sq asq vertices cd =
      { cd with sliding_surfaces := cd.sliding_surfaces ++ [(candidateAt sq asq vertices 0).1] } := by
  refine ⟨fun cd2 p => classifyStep_eq sq cd2 p, ?_⟩
  have hnq : ¬(vertices.length = 4 ∧ inWallRange (candidateAt sq asq vertices 0).2 ∧
      inWallRange (candidateAt sq asq vertices 1).2) := by
    intro ⟨h4, _⟩; omega
  rw [addCollisionsCore_noquad sq asq vertices cd (by omega) hnq]
  have hr : List.range (vertices.length - 2) = [0] := by rw [hlen]; decide
  rw [hr]
  simp only [List.map_cons, List.map_nil, List.foldl_cons, List.foldl_nil]
  rw [classifyStep_eq]
  rw [if_neg, if_pos]
  · constructor <;> rw [hangle] <;> norm_num [SLIDE_NORMAL_ELEVATION_MIN,
      SLIDE_NORMAL_ELEVATION_MAX, WALL_NORMAL_ELEVATION_MAX]
  · rw [hangle]
    intro ⟨_, hlt⟩
    exact absurd hlt (lt_irrefl _)

/-- Witness for C4: a concrete triangle whose modelled `asin` returns exactly
`0.0873`; it lands in the sliding list. -/
theorem classification_order_c4_witness :
    ((List.replicate 3 Vrtx.empty).length = 3) ∧
    ((candidateAt (fun q => q) (fun _ => (873/10000 : ℚ)) (List.replicate 3 Vrtx.empty) 0).2 =
      WALL_NORMAL_ELEVATION_MAX) ∧
    addCollisionsCore (fun q => q) (fun _ => (873/10000 : ℚ)) (List.replicate 3 Vrtx.empty)
        CollisionData.new =
      { CollisionData.new with
        sliding_surfaces := CollisionData.new.sliding_surfaces ++
          [(candidateAt (fun q => q) (fun _ => (873/10000 : ℚ)) (List.replicate 3 Vrtx.empty) 0).1] } :=
  ⟨by decide, by rfl,
    (classification_order_c4 (fun q => q) (fun _ => (873/10000 : ℚ)) (List.replicate 3 Vrtx.empty)
      CollisionData.new (by decide) (by rfl)).2⟩

/-- C3: a polygon producing exactly two candidate triangles, both with
elevation strictly inside `(-0.0873, 0.0873)`, yields exactly one wall built
from the two candidate surfaces — whose corner points are the four original
polygon corners — and no surfaces; in every other case no merge happens and
each wall-range candidate produces its own independent wall. -/
theorem quad_merge_c3 (sq asq : ℚ → ℚ) (vertices : List Vrtx) (cd : CollisionData)
    (h3 : 3 ≤ vertices.length) :
    ((vertices.length = 4 ∧ inWallRange (candidateAt sq asq vertices 0).2 ∧
        inWallRange (candidateAt sq asq vertices 1).2) →
      addCollisionsCore sq asq vertices cd =
        { cd with
          walls := cd.walls ++
            [mkQuadWall sq
              (surfaceOfTriple (vertices.getD 0 Vrtx.empty) (vertices.getD 1 Vrtx.empty)
                (vertices.getD 2 Vrtx.empty))
              (surfaceOfTriple (vertices.getD 0 Vrtx.empty) (vertices.getD 2 Vrtx.empty)
                (vertices.getD 3 Vrtx.empty))] }) ∧
    (¬(vertices.length = 4 ∧ inWallRange (candidateAt sq asq vertices 0).2 ∧
        inWallRange (candidateAt sq asq vertices 1).2) →
      addCollisionsCore sq asq vertices cd =
        { cd with
          walls := cd.walls ++
            (((List.range (vertices.length - 2)).map (candidateAt sq asq vertices)).filter
              (fun p => decide (inWallRange p.2))).map (fun p => mkTriWall sq p.1),
          sliding_surfaces := cd.sliding_surfaces ++
            (((List.range (vertices.length - 2)).map (candidateAt sq asq vertices)).filter
              (fun p => decide (¬ inWallRange p.2 ∧ inSlideRange p.2))).map Prod.fst,
          traction_surfaces := cd.traction_surfaces ++
            (((List.range (vertices.length - 2)).map (candidateAt sq asq vertices)).filter
              (fun p => decide (¬ inWallRange p.2 ∧ ¬ inSlideRange p.2))).map Prod.fst }) := by
  constructor
  · intro ⟨h4, hw0, hw1⟩
    rw [addCollisionsCore_quad sq asq vertices cd h4 hw0 hw1]
    rfl
  · intro hnq
    rw [addCollisionsCore_noquad sq asq vertices cd h3 hnq, foldl_classify]

/-- Witness for C3: a concrete quadrilateral whose two candidates are both in
wall range collapses to a single wall, and a concrete 5-corner polygon with
all three candidates in wall range emits three independent walls. -/
theorem quad_merge_c3_witness :
    (3 ≤ (List.replicate 4 Vrtx.empty).length) ∧
    ((List.replicate 4 Vrtx.empty).length = 4) ∧
    inWallRange (candidateAt (fun q => q) (fun _ => (0 : ℚ)) (List.replicate 4 Vrtx.empty) 0).2 ∧
    inWallRange (candidateAt (fun q => q) (fun _ => (0 : ℚ)) (List.replicate 4 Vrtx.empty) 1).2 ∧
    (addCollisionsCore (fun q => q) (fun _ => (0 : ℚ)) (List.replicate 4 Vrtx.empty)
        CollisionData.new =
      { CollisionData.new with
        walls := CollisionData.new.walls ++
          [mkQuadWall (fun q => q) (surfaceOfTriple Vrtx.empty Vrtx.empty Vrtx.empty)
            (surfaceOfTriple Vrtx.empty Vrtx.empty Vrtx.empty)] }) ∧
    (addCollisionsCore (fun q => q) (fun _ => (0 : ℚ)) (List.replicate 5 Vrtx.empty)
        CollisionData.new).walls.length = 3 := by
  have hw0 : inWallRange
      (candidateAt (fun q => q) (fun _ => (0 : ℚ)) (List.replicate 4 Vrtx.empty) 0).2 := by
    show inWallRange 0
    constructor <;> norm_num [WALL_NORMAL_ELEVATION_MIN, WALL_NORMAL_ELEVATION_MAX]
  have hw1 : inWallRange
      (candidateAt (fun q => q) (fun _ => (0 : ℚ)) (List.replicate 4 Vrtx.empty) 1).2 := by
    show inWallRange 0
    constructor <;> norm_num [WALL_NORMAL_ELEVATION_MIN, WALL_NORMAL_ELEVATION_MAX]
  have hq := (quad_merge_c3 (fun q => q) (fun _ => (0 : ℚ)) (List.replicate 4 Vrtx.empty)
    CollisionData.new (by decide)).1 ⟨by decide, hw0, hw1⟩
  have h5 := (quad_merge_c3 (fun q => q) (fun _ => (0 : ℚ)) (List.replicate 5 Vrtx.empty)
    CollisionData.new (by decide)).2 (by intro ⟨h4, _⟩; simp at h4)
  refine ⟨by decide, by decide, hw0, hw1, by simpa using hq, ?_⟩
  rw [h5]
  have hall : ∀ i : Nat, inWallRange
      (candidateAt (fun q => q) (fun _ => (0 : ℚ)) (List.replicate 5 Vrtx.empty) i).2 := by
    intro i
    show inWallRange 0
    constructor <;> norm_num [WALL_NORMAL_ELEVATION_MIN, WALL_NORMAL_ELEVATION_MAX]
  have hkeep : ∀ p ∈ (List.range ((List.replicate 5 Vrtx.empty).length - 2)).map
      (candidateAt (fun q => q) (fun _ => (0 : ℚ)) (List.replicate 5 Vrtx.empty)),
      (fun p => decide (inWallRange p.2)) p = true := by
    intro p hp
    simp only [List.mem_map] at hp
    obtain ⟨i, _, rfl⟩ := hp
    simpa using hall i
  rw [List.filter_eq_self.mpr hkeep]
  simp [CollisionData.new]

/-- One accumulator step never shrinks the tracked ranges. -/
theorem updatePoint_mono (e : Extents) (p : QVec3) :
    (updatePoint e p).x_min ≤ e.x_min ∧ e.x_max ≤ (updatePoint e p).x_max ∧
    (updatePoint e p).y_min ≤ e.y_min ∧ e.y_max ≤ (updatePoint e p).y_max ∧
    (updatePoint e p).z_min ≤ e.z_min ∧ e.z_max ≤ (updatePoint e p).z_max := by
  unfold updatePoint
  refine ⟨?_, ?_, ?_, ?_, ?_, ?_⟩ <;> dsimp <;> split <;> simp_all [le_of_lt]

/-- One accumulator step brings the scanned point inside the tracked ranges. -/
theorem updatePoint_contains (e : Extents) (p : QVec3) :
    (updatePoint e p).x_min ≤ p.x ∧ p.x ≤ (updatePoint e p).x_max ∧
    (updatePoint e p).y_min ≤ p.y ∧ p.y ≤ (updatePoint e p).y_max ∧
    (updatePoint e p).z_min ≤ p.z ∧ p.z ≤ (updatePoint e p).z_max := by
  unfold updatePoint
  refine ⟨?_, ?_, ?_, ?_, ?_, ?_⟩ <;> dsimp <;> split <;> simp_all [not_lt, le_refl]

/-- Folding the accumulator over any point list never shrinks the ranges. -/
theorem foldl_updatePoint_mono (l : List QVec3) : ∀ e : Extents,
    (l.foldl updatePoint e).x_min ≤ e.x_min ∧ e.x_max ≤ (l.foldl updatePoint e).x_max ∧
    (l.foldl updatePoint e).y_min ≤ e.y_min ∧ e.y_max ≤ (l.foldl updatePoint e).y_max ∧
    (l.foldl updatePoint e).z_min ≤ e.z_min ∧ e.z_max ≤ (l.foldl updatePoint e).z_max := by
  induction l with
  | nil => intro e; simp
  | cons p t ih =>
      intro e
      have h1 := updatePoint_mono e p
      have h2 := ih (updatePoint e p)
      simp only [List.foldl_cons]
      exact ⟨le_trans h2.1 h1.1, le_trans h1.2.1 h2.2.1,
        le_trans h2.2.2.1 h1.2.2.1, le_trans h1.2.2.2.1 h2.2.2.2.1,
        le_trans h2.2.2.2.2.1 h1.2.2.2.2.1, le_trans h1.2.2.2.2.2 h2.2.2.2.2.2⟩

/-- Every scanned point ends up inside the final ranges. -/
theorem foldl_updatePoint_contains (l : List QVec3) (p : QVec3) (hp : p ∈ l) : ∀ e : Extents,
    (l.foldl updatePoint e).x_min ≤ p.x ∧ p.x ≤ (l.foldl updatePoint e).x_max ∧
    (l.foldl updatePoint e).y_min ≤ p.y ∧ p.y ≤ (l.foldl updatePoint e).y_max ∧
    (l.foldl updatePoint e).z_min ≤ p.z ∧ p.z ≤ (l.foldl updatePoint e).z_max := by
  induction l with
  | nil => cases hp
  | cons q t ih =>
      intro e
      simp only [List.foldl_cons]
      rcases List.mem_cons.mp hp with rfl | hmem
      · have h1 := updatePoint_contains e p
        have h2 := foldl_updatePoint_mono t (updatePoint e p)
        exact ⟨le_trans h2.1 h1.1, le_trans h1.2.1 h2.2.1,
          le_trans h2.2.2.1 h1.2.2.1, le_trans h1.2.2.2.1 h2.2.2.2.1,
          le_trans h2.2.2.2.2.1 h1.2.2.2.2.1, le_trans h1.2.2.2.2.2 h2.2.2.2.2.2⟩
      · exact ih hmem (updatePoint e q)

/-- The three corner points a surface contributes to the extent scan. -/
def surfPoints (s : QSurface) : List QVec3 :=
  [s.point_0, s.point_1, s.point_2]

/-- Every point visited by `find_extents`, in scan order: all corners of the
traction then sliding surfaces, then `bottom_left` (twice) for each wall. -/
def allPoints (cd : CollisionData) : List QVec3 :=
  cd.traction_surfaces.flatMap surfPoints ++ cd.sliding_surfaces.flatMap surfPoints ++
    cd.walls.flatMap (fun w => [w.bottom_left, w.bottom_left])

/-- Surface folding flattens to point folding. -/
theorem foldl_updateSurface_flat (sl : List QSurface) : ∀ e : Extents,
    sl.foldl updateSurface e = (sl.flatMap surfPoints).foldl updatePoint e := by
  induction sl with
  | nil => intro e; rfl
  | cons s t ih =>
      intro e
      simp only [List.foldl_cons, List.flatMap_cons, List.foldl_append]
      rw [ih]
      rfl

/-- Wall folding flattens to point folding. -/
theorem foldl_updateWall_flat (wl : List QWall) : ∀ e : Extents,
    wl.foldl updateWall e = (wl.flatMap (fun w => [w.bottom_left, w.bottom_left])).foldl
      updatePoint e := by
  induction wl with
  | nil => intro e; rfl
  | cons w t ih =>
      intro e
      simp only [List.foldl_cons, List.flatMap_cons, List.foldl_append]
      rw [ih]
      rfl

/-- The extent pass is the point fold over `allPoints`, seeded at zero. -/
theorem findExtents_eq_flat (cd : CollisionData) :
    findExtents cd =
      { cd with
        extent_x := (((allPoints cd).foldl updatePoint ⟨0, 0, 0, 0, 0, 0⟩).x_min,
          ((allPoints cd).foldl updatePoint ⟨0, 0, 0, 0, 0, 0⟩).x_max)
        extent_y := (((allPoints cd).foldl updatePoint ⟨0, 0, 0, 0, 0, 0⟩).y_min,
          ((allPoints cd).foldl updatePoint ⟨0, 0, 0, 0, 0, 0⟩).y_max)
        extent_z := (((allPoints cd).foldl updatePoint ⟨0, 0, 0, 0, 0, 0⟩).z_min,
          ((allPoints cd).foldl updatePoint ⟨0, 0, 0, 0, 0, 0⟩).z_max) } := by
  unfold findExtents allPoints
  simp only [foldl_updateSurface_flat, foldl_updateWall_flat, List.foldl_append]

/-- A wall list contributes its scan points through `bottom_left` only. -/
theorem wall_scan_points_eq_map (wl : List QWall) :
    wl.flatMap (fun w => [w.bottom_left, w.bottom_left]) =
      (wl.map QWall.bottom_left).flatMap (fun p => [p, p]) := by
  induction wl with
  | nil => rfl
  | cons w t ih => simp [ih]

/-- C7: `find_extents` seeds all six running min/max values at `0.0`, so every
min extent ends at most `0` and every max extent at least `0`; the result
depends on the walls only through their `bottom_left` corners (`top_right`
never contributes); and every scanned point — all three corners of each
traction and sliding surface and each wall's `bottom_left` — lies inside the
final extents. -/
theorem find_extents_c7 (cd cd2 : CollisionData)
    (hts : cd2.traction_surfaces = cd.traction_surfaces)
    (hss : cd2.sliding_surfaces = cd.sliding_surfaces)
    (hbl : cd2.walls.map QWall.bottom_left = cd.walls.map QWall.bottom_left) :
    ((findExtents cd).extent_x.1 ≤ 0 ∧ 0 ≤ (findExtents cd).extent_x.2 ∧
     (findExtents cd).extent_y.1 ≤ 0 ∧ 0 ≤ (findExtents cd).extent_y.2 ∧
     (findExtents cd).extent_z.1 ≤ 0 ∧ 0 ≤ (findExtents cd).extent_z.2) ∧
    ((findExtents cd2).extent_x = (findExtents cd).extent_x ∧
     (findExtents cd2).extent_y = (findExtents cd).extent_y ∧
     (findExtents cd2).extent_z = (findExtents cd).extent_z) ∧
    (∀ s ∈ cd.traction_surfaces ++ cd.sliding_surfaces, ∀ p ∈ surfPoints s,
      (findExtents cd).extent_x.1 ≤ p.x ∧ p.x ≤ (findExtents cd).extent_x.2 ∧
      (findExtents cd).extent_y.1 ≤ p.y ∧ p.y ≤ (findExtents cd).extent_y.2 ∧
      (findExtents cd).extent_z.1 ≤ p.z ∧ p.z ≤ (findExtents cd).extent_z.2) ∧
    (∀ w ∈ cd.walls,
      (findExtents cd).extent_x.1 ≤ w.bottom_left.x ∧
      w.bottom_left.x ≤ (findExtents cd).extent_x.2 ∧
      (findExtents cd).extent_y.1 ≤ w.bottom_left.y ∧
      w.bottom_left.y ≤ (findExtents cd).extent_y.2 ∧
      (findExtents cd).extent_z.1 ≤ w.bottom_left.z ∧
      w.bottom_left.z ≤ (findExtents cd).extent_z.2) := by
  have hpts : allPoints cd2 = allPoints cd := by
    unfold allPoints
    rw [hts, hss, wall_scan_points_eq_map, hbl, ← wall_scan_points_eq_map]
  refine ⟨?_, ?_, ?_, ?_⟩
  · rw [findExtents_eq_flat]
    simpa using foldl_updatePoint_mono (allPoints cd) ⟨0, 0, 0, 0, 0, 0⟩
  · rw [findExtents_eq_flat, findExtents_eq_flat, hpts]
    simp
  · intro s hs p hp
    have hmem : p ∈ allPoints cd := by
      unfold allPoints
      rcases List.mem_append.mp hs with h | h
      · exact List.mem_append.mpr (Or.inl (List.mem_append.mpr (Or.inl
          (List.mem_flatMap.mpr ⟨s, h, hp⟩))))
      · exact List.mem_append.mpr (Or.inl (List.mem_append.mpr (Or.inr
          (List.mem_flatMap.mpr ⟨s, h, hp⟩))))
    rw [findExtents_eq_flat]
    simpa using foldl_updatePoint_contains (allPoints cd) p hmem ⟨0, 0, 0, 0, 0, 0⟩
  · intro w hw
    have hmem : w.bottom_left ∈ allPoints cd := by
      unfold allPoints
      exact List.mem_append.mpr (Or.inr (List.mem_flatMap.mpr ⟨w, hw, by simp⟩))
    rw [findExtents_eq_flat]
    simpa using foldl_updatePoint_contains (allPoints cd) w.bottom_left hmem ⟨0, 0, 0, 0, 0, 0⟩

/-- Witness for C7 on a concrete collision set: one traction surface, one wall,
and a second set differing only in the wall's `top_right` corner. -/
theorem find_extents_c7_witness :
    ((⟨(0, 0), (0, 0), (0, 0), [QSurface.empty], [],
        [⟨⟨0, 0, 0⟩, ⟨0, 0, 0⟩, ⟨0, 0, 0⟩⟩]⟩ : CollisionData).traction_surfaces =
      (⟨(0, 0), (0, 0), (0, 0), [QSurface.empty], [],
        [⟨⟨0, 0, 0⟩, ⟨1, 2, 3⟩, ⟨0, 0, 0⟩⟩]⟩ : CollisionData).traction_surfaces) ∧
    ((findExtents ⟨(0, 0), (0, 0), (0, 0), [QSurface.empty], [],
        [⟨⟨0, 0, 0⟩, ⟨0, 0, 0⟩, ⟨0, 0, 0⟩⟩]⟩).extent_x =
      (findExtents ⟨(0, 0), (0, 0), (0, 0), [QSurface.empty], [],
        [⟨⟨0, 0, 0⟩, ⟨1, 2, 3⟩, ⟨0, 0, 0⟩⟩]⟩).extent_x) ∧
    ((findExtents ⟨(0, 0), (0, 0), (0, 0), [QSurface.empty], [],
        [⟨⟨0, 0, 0⟩, ⟨1, 2, 3⟩, ⟨0, 0, 0⟩⟩]⟩).extent_y.1 ≤ 0) := by
  have h := find_extents_c7
    (⟨(0, 0), (0, 0), (0, 0), [QSurface.empty], [], [⟨⟨0, 0, 0⟩, ⟨1, 2, 3⟩, ⟨0, 0, 0⟩⟩]⟩ :
      CollisionData)
    (⟨(0, 0), (0, 0), (0, 0), [QSurface.empty], [], [⟨⟨0, 0, 0⟩, ⟨0, 0, 0⟩, ⟨0, 0, 0⟩⟩]⟩ :
      CollisionData)
    rfl rfl rfl
  exact ⟨rfl, h.2.1.1, h.1.2.2.1⟩

/-- Shifted default-read through an append. -/
theorem getD_append_off (l1 l2 : List Nat) (k : Nat) :
    (l1 ++ l2).getD (l1.length + k) 0 = l2.getD k 0 := by
  rw [List.getD_append_right l1 l2 0 (l1.length + k) (by omega)]
  congr 1
  omega

/-- The deduplicator never touches the emitted face indices. -/
theorem getIndex_face_indices (m : Model) (p n t : Nat) (v : Vrtx) :
    (m.getIndex p n t v).2.face_indices = m.face_indices := by
  simp only [Model.getIndex]
  cases hf : findIdx ((t + n * 65536 + p * 4294967296) % 18446744073709551616) m.index_map <;>
    simp [hf]

/-- The index returned by the deduplicator does not depend on the vertex payload. -/
theorem getIndex_fst_indep (m : Model) (p n t : Nat) (v w : Vrtx) :
    (m.getIndex p n t v).1 = (m.getIndex p n t w).1 := by
  simp only [Model.getIndex]
  cases hf : findIdx ((t + n * 65536 + p * 4294967296) % 18446744073709551616) m.index_map <;>
    simp [hf]

/-- Shape of the indices emitted by the fan loop: three per remaining
reference, every triple starting with the fixed `startIndex`, the first triple
continuing with the incoming `secondIndex`, and each later triple's second
entry equal to the previous triple's third entry. -/
theorem addFacesLoop_spec (raw : RawModelData) (i0 : Nat) :
    ∀ (rest : List IndexSet) (i1 : Nat) (m m' : Model),
      addFacesLoop raw i0 i1 m rest = some m' →
      ∃ tail : List Nat,
        m'.face_indices = m.face_indices ++ tail ∧
        tail.length = 3 * rest.length ∧
        (∀ k < rest.length, tail.getD (3 * k) 0 = i0) ∧
        (0 < rest.length → tail.getD 1 0 = i1) ∧
        (∀ k, k + 1 < rest.length →
          tail.getD (3 * (k + 1) + 1) 0 = tail.getD (3 * k + 2) 0) := by
  intro rest
  induction rest with
  | nil =>
      intro i1 m m' h
      simp only [addFacesLoop, Option.some.injEq] at h
      exact ⟨[], by simp [← h], by simp, by intro k hk; simp at hk,
        by intro hh; simp at hh, by intro k hk; simp at hk⟩
  | cons s t ih =>
      intro i1 m m' h
      simp only [addFacesLoop, Option.bind_eq_bind] at h
      cases hv : vertexFromIndices raw s with
      | none => rw [hv] at h; simp at h
      | some v =>
          rw [hv] at h
          simp only [Option.some_bind] at h
          rcases hgi : m.getIndex s.position_index s.normal_index s.tex_coord_index v with ⟨i2, m2⟩
          rw [hgi] at h
          obtain ⟨tail2, h1, h2, h3, h4, h5⟩ := ih i2 (m2.addFace i0 i1 i2) m' h
          have hm2 : m2.face_indices = m.face_indices := by
            have := getIndex_face_indices m s.position_index s.normal_index s.tex_coord_index v
            rw [hgi] at this
            exact this
          refine ⟨[i0, i1, i2] ++ tail2, ?_, ?_, ?_, ?_, ?_⟩
          · rw [h1]
            simp [Model.addFace, hm2]
          · simp [h2]; omega
          · intro k hk
            match k with
            | 0 => rfl
            | k + 1 =>
                have h3k : (3 : Nat) * (k + 1) = 3 + 3 * k := by omega
                rw [h3k]
                have : ([i0, i1, i2] : List Nat).length = 3 := rfl
                rw [← this, getD_append_off]
                exact h3 k (by simp at hk; omega)
          · intro _
            rfl
          · intro k hk
            match k with
            | 0 =>
                have ht : 0 < t.length := by simp at hk; omega
                have hgoal : ([i0, i1, i2] ++ tail2 : List Nat).getD 4 0 = tail2.getD 1 0 := by
                  have : (4 : Nat) = ([i0, i1, i2] : List Nat).length + 1 := rfl
                  rw [this, getD_append_off]
                rw [show (3 : Nat) * (0 + 1) + 1 = 4 by omega, hgoal, h4 ht]
                rfl
            | k + 1 =>
                have e1 : (3 : Nat) * (k + 1 + 1) + 1 = 3 + (3 * (k + 1) + 1) := by omega
                have e2 : (3 : Nat) * (k + 1) + 2 = 3 + (3 * k + 2) := by omega
                have h3len : ([i0, i1, i2] : List Nat).length = 3 := rfl
                rw [e1, e2, ← h3len, getD_append_off, getD_append_off]
                exact h5 k (by simp at hk; omega)

/-- C6: a polygon face of `N ≥ 3` attribute-index triples makes the fan
triangulator emit exactly `N - 2` triangles (three indices each); the
deduplicated index of the first reference is the first entry of every emitted
triangle, and each later triangle's second entry repeats the previous
triangle's third entry (the fan pattern `(i0,i1,i2), (i0,i2,i3), …`). -/
theorem fan_triangulation_c6 (raw : RawModelData) (indexSets : List IndexSet)
    (model m' : Model) (s0 s1 : IndexSet) (rest : List IndexSet)
    (hsets : indexSets = s0 :: s1 :: rest)
    (h3 : 3 ≤ indexSets.length)
    (hsome : addFacesForIndexSets raw indexSets model = some m') :
    m'.face_indices.length = model.face_indices.length + 3 * (indexSets.length - 2) ∧
    (∀ k < indexSets.length - 2,
      m'.face_indices.getD (model.face_indices.length + 3 * k) 0 =
        (model.getIndex s0.position_index s0.normal_index s0.tex_coord_index Vrtx.empty).1) ∧
    (∀ k, k + 1 < indexSets.length - 2 →
      m'.face_indices.getD (model.face_indices.length + 3 * (k + 1) + 1) 0 =
        m'.face_indices.getD (model.face_indices.length + 3 * k + 2) 0) := by
  subst hsets
  simp only [addFacesForIndexSets, Option.bind_eq_bind] at hsome
  cases hv0 : vertexFromIndices raw s0 with
  | none => rw [hv0] at hsome; simp at hsome
  | some v0 =>
      rw [hv0] at hsome
      simp only [Option.some_bind] at hsome
      rcases hg0 : model.getIndex s0.position_index s0.normal_index s0.tex_coord_index v0 with
        ⟨i0, m0⟩
      rw [hg0] at hsome
      cases hv1 : vertexFromIndices raw s1 with
      | none => rw [hv1] at hsome; simp at hsome
      | some v1 =>
          rw [hv1] at hsome
          simp only [Option.some_bind] at hsome
          rcases hg1 : m0.getIndex s1.position_index s1.normal_index s1.tex_coord_index v1 with
            ⟨i1, m1⟩
          rw [hg1] at hsome
          obtain ⟨tail, h1, h2, h3k, h4, h5⟩ := addFacesLoop_spec raw i0 rest i1 m1 m' hsome
          have hm1 : m1.face_indices = model.face_indices := by
            have ha := getIndex_face_indices m0 s1.position_index s1.normal_index
              s1.tex_coord_index v1
            have hb := getIndex_face_indices model s0.position_index s0.normal_index
              s0.tex_coord_index v0
            rw [hg1] at ha
            rw [hg0] at hb
            rw [ha, hb]
          have hi0 : i0 =
              (model.getIndex s0.position_index s0.normal_index s0.tex_coord_index Vrtx.empty).1 := by
            have := getIndex_fst_indep model s0.position_index s0.normal_index s0.tex_coord_index
              v0 Vrtx.empty
            rw [hg0] at this
            exact this.symm ▸ this
          have hfi : m'.face_indices = model.face_indices ++ tail := by rw [h1, hm1]
          have hlen2 : (s0 :: s1 :: rest).length - 2 = rest.length := by simp
          refine ⟨?_, ?_, ?_⟩
          · rw [hfi, hlen2]
            simp [h2]
          · intro k hk
            rw [hlen2] at hk
            rw [hfi, getD_append_off, h3k k hk]
            have := getIndex_fst_indep model s0.position_index s0.normal_index s0.tex_coord_index
              v0 Vrtx.empty
            rw [hg0] at this
            exact this
          · intro k hk
            rw [hlen2] at hk
            have e1 : model.face_indices.length + 3 * (k + 1) + 1 =
                model.face_indices.length + (3 * (k + 1) + 1) := by omega
            have e2 : model.face_indices.length + 3 * k + 2 =
                model.face_indices.length + (3 * k + 2) := by omega
            rw [hfi, e1, e2, getD_append_off, getD_append_off]
            exact h5 k hk

/-- Witness for C6 at a concrete triangle (three identical references resolve
to one deduplicated vertex and one emitted face). -/
theorem fan_triangulation_c6_witness :
    (([⟨0, 0, 0⟩, ⟨0, 0, 0⟩, ⟨0, 0, 0⟩] : List IndexSet) = ⟨0, 0, 0⟩ :: ⟨0, 0, 0⟩ :: [⟨0, 0, 0⟩]) ∧
    (3 ≤ ([⟨0, 0, 0⟩, ⟨0, 0, 0⟩, ⟨0, 0, 0⟩] : List IndexSet).length) ∧
    (addFacesForIndexSets ⟨[⟨0, 0, 0⟩], [⟨0, 0⟩], [⟨0, 0, 0⟩]⟩
        [⟨0, 0, 0⟩, ⟨0, 0, 0⟩, ⟨0, 0, 0⟩] Model.new =
      some ⟨[Vrtx.empty], [0, 0, 0], [(0, 0)]⟩) ∧
    ((⟨[Vrtx.empty], [0, 0, 0], [(0, 0)]⟩ : Model).face_indices.length =
      Model.new.face_indices.length + 3 * (([⟨0, 0, 0⟩, ⟨0, 0, 0⟩, ⟨0, 0, 0⟩] :
        List IndexSet).length - 2)) ∧
    (∀ k < ([⟨0, 0, 0⟩, ⟨0, 0, 0⟩, ⟨0, 0, 0⟩] : List IndexSet).length - 2,
      (⟨[Vrtx.empty], [0, 0, 0], [(0, 0)]⟩ : Model).face_indices.getD
          (Model.new.face_indices.length + 3 * k) 0 =
        (Model.new.getIndex 0 0 0 Vrtx.empty).1) := by
  have h := fan_triangulation_c6 ⟨[⟨0, 0, 0⟩], [⟨0, 0⟩], [⟨0, 0, 0⟩]⟩
    [⟨0, 0, 0⟩, ⟨0, 0, 0⟩, ⟨0, 0, 0⟩] Model.new ⟨[Vrtx.empty], [0, 0, 0], [(0, 0)]⟩
    ⟨0, 0, 0⟩ ⟨0, 0, 0⟩ [⟨0, 0, 0⟩] rfl (by decide) (by decide)
  exact ⟨rfl, by decide, by decide, h.1, h.2.1⟩

/-- Lookup on a consed entry. -/
theorem findIdx_cons (k a b : Nat) (l : List (Nat × Nat)) :
    findIdx k ((a, b) :: l) = if k = a then some b else findIdx k l := rfl

/-- The deduplicator on a key already in the map: hit, no state change. -/
theorem getIndex_found (m : Model) (p n t : Nat) (v : Vrtx) (pos : Nat)
    (h : findIdx ((t + n * 65536 + p * 4294967296) % 18446744073709551616) m.index_map =
      some pos) :
    m.getIndex p n t v = (pos, m) := by
  simp [Model.getIndex, h]

/-- The deduplicator on a fresh key: the new index is the current vertex count
reduced `% 2^16`, the key is inserted, and the vertex is appended. -/
theorem getIndex_fresh (m : Model) (p n t : Nat) (v : Vrtx)
    (h : findIdx ((t + n * 65536 + p * 4294967296) % 18446744073709551616) m.index_map = none) :
    m.getIndex p n t v =
      (m.interleaved_vertices.length % 65536,
        { m with
          index_map := ((t + n * 65536 + p * 4294967296) % 18446744073709551616,
            m.interleaved_vertices.length % 65536) :: m.index_map,
          interleaved_vertices := m.interleaved_vertices ++ [v] }) := by
  simp [Model.getIndex, h]

/-- The packed 64-bit key is injective on 16-bit components. -/
theorem identifier_inj (p1 n1 t1 p2 n2 t2 : Nat)
    (hp1 : p1 < 65536) (hn1 : n1 < 65536) (ht1 : t1 < 65536)
    (hp2 : p2 < 65536) (hn2 : n2 < 65536) (ht2 : t2 < 65536)
    (h : (t1 + n1 * 65536 + p1 * 4294967296) % 18446744073709551616 =
      (t2 + n2 * 65536 + p2 * 4294967296) % 18446744073709551616) :
    p1 = p2 ∧ n1 = n2 ∧ t1 = t2 := by
  have e1 : t1 + n1 * 65536 + p1 * 4294967296 < 18446744073709551616 := by omega
  have e2 : t2 + n2 * 65536 + p2 * 4294967296 < 18446744073709551616 := by omega
  rw [Nat.mod_eq_of_lt e1, Nat.mod_eq_of_lt e2] at h
  omega

/-- Well-formedness of a deduplication map, true of every reachable `Model`:
every stored index is below the vertex count, and no index is stored under two
different keys. -/
def MapWF (m : Model) : Prop :=
  (∀ k v, findIdx k m.index_map = some v → v < m.interleaved_vertices.length) ∧
  (∀ k1 k2 v, findIdx k1 m.index_map = some v → findIdx k2 m.index_map = some v → k1 = k2)

/-- C1: under 16-bit attribute indices and a final vertex count of at most
65536, calling the deduplicator twice — first with triple A, then with triple
B — returns the same index and leaves the vertex sequence unchanged on the
second call when the triples are identical, and returns distinct indices when
the triples differ in any component, whatever the vertex payloads are. -/
theorem dedup_identity_c1 (m : Model) (pA nA tA pB nB tB : Nat) (vA vB : Vrtx)
    (hwf : MapWF m)
    (hpA : pA < 65536) (hnA : nA < 65536) (htA : tA < 65536)
    (hpB : pB < 65536) (hnB : nB < 65536) (htB : tB < 65536)
    (hcap : ((m.getIndex pA nA tA vA).2.getIndex pB nB tB vB).2.interleaved_vertices.length ≤
      65536) :
    ((pA, nA, tA) = (pB, nB, tB) →
      ((m.getIndex pA nA tA vA).2.getIndex pB nB tB vB).1 = (m.getIndex pA nA tA vA).1 ∧
      ((m.getIndex pA nA tA vA).2.getIndex pB nB tB vB).2.interleaved_vertices =
        (m.getIndex pA nA tA vA).2.interleaved_vertices) ∧
    ((pA, nA, tA) ≠ (pB, nB, tB) →
      ((m.getIndex pA nA tA vA).2.getIndex pB nB tB vB).1 ≠ (m.getIndex pA nA tA vA).1) := by
  cases hA : findIdx ((tA + nA * 65536 + pA * 4294967296) % 18446744073709551616) m.index_map with
  | some posA =>
      rw [getIndex_found m pA nA tA vA posA hA] at hcap ⊢
      dsimp only at hcap ⊢
      cases hB : findIdx ((tB + nB * 65536 + pB * 4294967296) % 18446744073709551616)
          m.index_map with
      | some posB =>
          rw [getIndex_found m pB nB tB vB posB hB] at hcap ⊢
          dsimp only at hcap ⊢
          constructor
          · intro heq
            injection heq with h1 h23
            injection h23 with h2 h3
            subst h1; subst h2; subst h3
            rw [hA] at hB
            injection hB with h
            exact ⟨h.symm, rfl⟩
          · intro hne hEq
            subst hEq
            have hkeq := hwf.2 _ _ posB hB hA
            obtain ⟨h1, h2, h3⟩ :=
              identifier_inj pB nB tB pA nA tA hpB hnB htB hpA hnA htA hkeq
            exact hne (by rw [h1, h2, h3])
      | none =>
          rw [getIndex_fresh m pB nB tB vB hB] at hcap ⊢
          dsimp only at hcap ⊢
          constructor
          · intro heq
            injection heq with h1 h23
            injection h23 with h2 h3
            subst h1; subst h2; subst h3
            rw [hA] at hB
            cases hB
          · intro hne
            simp only [List.length_append, List.length_cons, List.length_nil] at hcap
            have hlt := hwf.1 _ posA hA
            have : m.interleaved_vertices.length % 65536 = m.interleaved_vertices.length :=
              Nat.mod_eq_of_lt (by omega)
            omega
  | none =>
      rw [getIndex_fresh m pA nA tA vA hA] at hcap ⊢
      dsimp only at hcap ⊢
      by_cases hid : (tB + nB * 65536 + pB * 4294967296) % 18446744073709551616 =
          (tA + nA * 65536 + pA * 4294967296) % 18446744073709551616
      · have hhit : findIdx ((tB + nB * 65536 + pB * 4294967296) % 18446744073709551616)
            (((tA + nA * 65536 + pA * 4294967296) % 18446744073709551616,
              m.interleaved_vertices.length % 65536) :: m.index_map) =
            some (m.interleaved_vertices.length % 65536) := by
          rw [findIdx_cons, if_pos hid]
        rw [getIndex_found _ pB nB tB vB _ hhit] at hcap ⊢
        dsimp only at hcap ⊢
        constructor
        · intro _
          exact ⟨rfl, rfl⟩
        · intro hne
          obtain ⟨h1, h2, h3⟩ :=
            identifier_inj pB nB tB pA nA tA hpB hnB htB hpA hnA htA hid
          exact absurd (by rw [h1, h2, h3]) hne
      · have hmiss : findIdx ((tB + nB * 65536 + pB * 4294967296) % 18446744073709551616)
            (((tA + nA * 65536 + pA * 4294967296) % 18446744073709551616,
              m.interleaved_vertices.length % 65536) :: m.index_map) =
            findIdx ((tB + nB * 65536 + pB * 4294967296) % 18446744073709551616) m.index_map := by
          rw [findIdx_cons, if_neg hid]
        cases hB : findIdx ((tB + nB * 65536 + pB * 4294967296) % 18446744073709551616)
            m.index_map with
        | some posB =>
            have hfound : findIdx ((tB + nB * 65536 + pB * 4294967296) % 18446744073709551616)
                (((tA + nA * 65536 + pA * 4294967296) % 18446744073709551616,
                  m.interleaved_vertices.length % 65536) :: m.index_map) = some posB := by
              rw [hmiss, hB]
            rw [getIndex_found _ pB nB tB vB _ hfound] at hcap ⊢
            dsimp only at hcap ⊢
            constructor
            · intro heq
              injection heq with h1 h23
              injection h23 with h2 h3
              subst h1; subst h2; subst h3
              exact absurd rfl hid
            · intro hne
              simp only [List.length_append, List.length_cons, List.length_nil] at hcap
              have hlt := hwf.1 _ posB hB
              have : m.interleaved_vertices.length % 65536 = m.interleaved_vertices.length :=
                Nat.mod_eq_of_lt (by omega)
              omega
        | none =>
            have hfresh2 : findIdx ((tB + nB * 65536 + pB * 4294967296) % 18446744073709551616)
                (((tA + nA * 65536 + pA * 4294967296) % 18446744073709551616,
                  m.interleaved_vertices.length % 65536) :: m.index_map) = none := by
              rw [hmiss, hB]
            rw [getIndex_fresh _ pB nB tB vB hfresh2] at hcap ⊢
            dsimp only at hcap ⊢
            constructor
            · intro heq
              injection heq with h1 h23
              injection h23 with h2 h3
              subst h1; subst h2; subst h3
              exact absurd rfl hid
            · intro hne
              simp only [List.length_append, List.length_cons, List.length_nil] at hcap ⊢
              have e1 : (m.interleaved_vertices.length + 1) % 65536 =
                  m.interleaved_vertices.length + 1 := Nat.mod_eq_of_lt (by omega)
              have e2 : m.interleaved_vertices.length % 65536 =
                  m.interleaved_vertices.length := Nat.mod_eq_of_lt (by omega)
              omega

/-- Witness for C1: the empty model with the distinct triples `(1,2,3)` and
`(4,5,6)` receives indices `0` and `1`. -/
theorem dedup_identity_c1_witness :
    MapWF Model.new ∧
    (((Model.new.getIndex 1 2 3 Vrtx.empty).2.getIndex 4 5 6
      Vrtx.empty).2.interleaved_vertices.length ≤ 65536) ∧
    (((1, 2, 3) : Nat × Nat × Nat) ≠ (4, 5, 6) →
      ((Model.new.getIndex 1 2 3 Vrtx.empty).2.getIndex 4 5 6 Vrtx.empty).1 ≠
        (Model.new.getIndex 1 2 3 Vrtx.empty).1) := by
  have hwf : MapWF Model.new := by
    constructor
    · intro k v h
      simp [Model.new, findIdx] at h
    · intro k1 k2 v h1 h2
      simp [Model.new, findIdx] at h1
  exact ⟨hwf, by decide,
    (dedup_identity_c1 Model.new 1 2 3 4 5 6 Vrtx.empty Vrtx.empty hwf
      (by decide) (by decide) (by decide) (by decide) (by decide) (by decide) (by decide)).2⟩

/-- Silent 16-bit wrap of the deduplicator: with 65536 vertices present, a
fresh key receives index `65536 % 65536 = 0` and the vertex sequence keeps
growing, with no error signalled. -/
theorem getIndex_wrap (m : Model) (p n t : Nat) (v : Vrtx)
    (hfull : m.interleaved_vertices.length = 65536)
    (hfresh : findIdx ((t + n * 65536 + p * 4294967296) % 18446744073709551616)
      m.index_map = none) :
    (m.getIndex p n t v).1 = 0 ∧
    (m.getIndex p n t v).2.interleaved_vertices.length = 65537 := by
  rw [getIndex_fresh m p n t v hfresh]
  dsimp only
  constructor
  · rw [hfull]
  · simp [hfull]

/-- Model state holding 65536 interleaved vertices with one mapped key. -/
def bigModel : Model :=
  ⟨List.replicate 65536 Vrtx.empty, [], [(0, 0)]⟩

/-- Convenient length fact about `bigModel`. -/
theorem bigModel_length : bigModel.interleaved_vertices.length = 65536 := by
  rw [show bigModel.interleaved_vertices = List.replicate 65536 Vrtx.empty from rfl,
    List.length_replicate]

/-- Counterexample to C9: at 65536 vertices the deduplicator raises no error
condition at all — a fresh triple gets the silently wrapped 16-bit index `0`,
colliding with the index of the already-mapped distinct triple `(0,0,0)`, and
the vertex sequence grows to 65537. -/
theorem capacity_c9_counterexample :
    ((bigModel.getIndex 0 0 0 Vrtx.empty).1 = 0 ∧
     (bigModel.getIndex 0 0 1 Vrtx.empty).1 = 0) ∧
    (((0, 0, 0) : Nat × Nat × Nat) ≠ (0, 0, 1)) ∧
    (bigModel.getIndex 0 0 1 Vrtx.empty).2.interleaved_vertices.length = 65537 := by
  have hfound : findIdx ((0 + 0 * 65536 + 0 * 4294967296) % 18446744073709551616)
      bigModel.index_map = some 0 := rfl
  have hw := getIndex_wrap bigModel 0 0 1 Vrtx.empty bigModel_length rfl
  refine ⟨⟨?_, hw.1⟩, by decide, hw.2⟩
  rw [getIndex_found bigModel 0 0 0 Vrtx.empty 0 hfound]

/-- C9 (amended): exceeding 65536 distinct interleaved vertices is not
detected by the code — `get_index` silently wraps, assigning index
`count % 65536 = 0` to the 65537th distinct triple and growing the vertex
sequence past the 16-bit range with no error signalled. -/
theorem capacity_c9_amended (m : Model) (p n t : Nat) (v : Vrtx)
    (hfull : m.interleaved_vertices.length = 65536)
    (hfresh : findIdx ((t + n * 65536 + p * 4294967296) % 18446744073709551616)
      m.index_map = none) :
    (m.getIndex p n t v).1 = 0 ∧
    (m.getIndex p n t v).2.interleaved_vertices.length = 65537 :=
  getIndex_wrap m p n t v hfull hfresh

/-- Witness for the amended C9 at the concrete 65536-vertex model. -/
theorem capacity_c9_amended_witness :
    (bigModel.interleaved_vertices.length = 65536) ∧
    (findIdx ((1 + 0 * 65536 + 0 * 4294967296) % 18446744073709551616) bigModel.index_map =
      none) ∧
    ((bigModel.getIndex 0 0 1 Vrtx.empty).1 = 0 ∧
     (bigModel.getIndex 0 0 1 Vrtx.empty).2.interleaved_vertices.length = 65537) :=
  ⟨bigModel_length, rfl, capacity_c9_amended bigModel 0 0 1 Vrtx.empty bigModel_length rfl⟩

/-- Two-wall list where the walls match: the EARLIER wall (index 0) is removed
and the later wall is kept. -/
theorem wall_dedup_pair (sq : ℚ → ℚ) (cd : CollisionData) (w1 w2 : QWall)
    (hm : wallsMatch sq w1 w2 = true) (hwalls : cd.walls = [w1, w2]) :
    removeWallDuplicates sq cd = some { cd with walls := [w2] } := by
  unfold removeWallDuplicates
  rw [hwalls]
  rw [if_neg (by simp)]
  have hcol : collectRemovals sq [w1, w2] = [0] := by
    unfold collectRemovals
    simp [show List.range 1 = [0] from by decide, hm]
  rw [hcol]
  simp [removeAll, removeAt]

/-- Two-wall list where the walls do not match: nothing is removed. -/
theorem wall_dedup_pair_nomatch (sq : ℚ → ℚ) (cd : CollisionData) (w1 w2 : QWall)
    (hm : wallsMatch sq w1 w2 = false) (hwalls : cd.walls = [w1, w2]) :
    removeWallDuplicates sq cd = some cd := by
  unfold removeWallDuplicates
  rw [hwalls]
  rw [if_neg (by simp)]
  have hcol : collectRemovals sq [w1, w2] = [] := by
    unfold collectRemovals
    simp [show List.range 1 = [0] from by decide, hm]
  rw [hcol, ← hwalls]
  rfl

/-- A wall compared against its corner-swapped copy fails the very first
height guard whenever the two corner heights differ by more than `0.01`. -/
theorem wallsMatch_reversed_false (sq : ℚ → ℚ) (P Q n1 n2 : QVec3)
    (hy : |P.y - Q.y| > 1/100) :
    wallsMatch sq ⟨P, Q, n1⟩ ⟨Q, P, n2⟩ = false := by
  unfold wallsMatch
  rw [if_pos]
  exact hy

/-- Counterexample to C5: two walls identical in both corners (differing only
in the stored normal) match within every tolerance, and the code keeps the
LATER-indexed wall, removing the earlier one — not the other way round. -/
theorem wall_dedup_c5_counterexample :
    removeWallDuplicates (fun q => q)
        ⟨(0, 0), (0, 0), (0, 0), [], [],
          [⟨⟨0, 0, 0⟩, ⟨2, 1, 0⟩, ⟨0, 0, 0⟩⟩, ⟨⟨0, 0, 0⟩, ⟨2, 1, 0⟩, ⟨5, 5, 5⟩⟩]⟩ =
      some ⟨(0, 0), (0, 0), (0, 0), [], [], [⟨⟨0, 0, 0⟩, ⟨2, 1, 0⟩, ⟨5, 5, 5⟩⟩]⟩ ∧
    (⟨⟨0, 0, 0⟩, ⟨2, 1, 0⟩, ⟨0, 0, 0⟩⟩ : QWall) ≠ ⟨⟨0, 0, 0⟩, ⟨2, 1, 0⟩, ⟨5, 5, 5⟩⟩ := by
  constructor
  · have hm : wallsMatch (fun q => q) ⟨⟨0, 0, 0⟩, ⟨2, 1, 0⟩, ⟨0, 0, 0⟩⟩
        ⟨⟨0, 0, 0⟩, ⟨2, 1, 0⟩, ⟨5, 5, 5⟩⟩ = true := by
      unfold wallsMatch QVec3.sub QVec3.qlen
      norm_num
    exact wall_dedup_pair (fun q => q) _ _ _ hm rfl
  · intro h
    injection h with hbl htr hn
    injection hn with hx hy hz
    norm_num at hx

/-- C5 (amended): in a two-wall list, when the four tolerance checks all pass
(heights of `bottom_left` and `top_right` within `0.01` and the two
XZ-projected corner displacements of magnitude at most `0.01`), the
EARLIER-indexed wall is removed and the later one kept; a wall whose corners
are reversed relative to an otherwise-identical wall whose two corner heights
differ by more than `0.01` is never matched and nothing is removed. -/
theorem wall_dedup_c5_amended (sq : ℚ → ℚ) (cd cd2 : CollisionData) (w1 w2 : QWall)
    (P Q n1 n2 : QVec3) :
    (cd.walls = [w1, w2] → wallsMatch sq w1 w2 = true →
      removeWallDuplicates sq cd = some { cd with walls := [w2] }) ∧
    (cd2.walls = [⟨P, Q, n1⟩, ⟨Q, P, n2⟩] → |P.y - Q.y| > 1/100 →
      removeWallDuplicates sq cd2 = some cd2) := by
  constructor
  · intro hwalls hm
    exact wall_dedup_pair sq cd w1 w2 hm hwalls
  · intro hwalls hy
    exact wall_dedup_pair_nomatch sq cd2 _ _ (wallsMatch_reversed_false sq P Q n1 n2 hy) hwalls

/-- Witness for C5: a matching pair collapses onto the later wall, and a
height-separated reversed pair stays intact. -/
theorem wall_dedup_c5_witness :
    (((⟨(0, 0), (0, 0), (0, 0), [], [],
        [⟨⟨0, 0, 0⟩, ⟨2, 1, 0⟩, ⟨0, 0, 0⟩⟩, ⟨⟨0, 0, 0⟩, ⟨2, 1, 0⟩, ⟨7, 7, 7⟩⟩]⟩ :
       CollisionData).walls =
      [⟨⟨0, 0, 0⟩, ⟨2, 1, 0⟩, ⟨0, 0, 0⟩⟩, ⟨⟨0, 0, 0⟩, ⟨2, 1, 0⟩, ⟨7, 7, 7⟩⟩]) ∧
     wallsMatch (fun q => q) ⟨⟨0, 0, 0⟩, ⟨2, 1, 0⟩, ⟨0, 0, 0⟩⟩
       ⟨⟨0, 0, 0⟩, ⟨2, 1, 0⟩, ⟨7, 7, 7⟩⟩ = true ∧
     removeWallDuplicates (fun q => q)
        ⟨(0, 0), (0, 0), (0, 0), [], [],
          [⟨⟨0, 0, 0⟩, ⟨2, 1, 0⟩, ⟨0, 0, 0⟩⟩, ⟨⟨0, 0, 0⟩, ⟨2, 1, 0⟩, ⟨7, 7, 7⟩⟩]⟩ =
       some ⟨(0, 0), (0, 0), (0, 0), [], [], [⟨⟨0, 0, 0⟩, ⟨2, 1, 0⟩, ⟨7, 7, 7⟩⟩]⟩) ∧
    ((|(⟨0, 0, 0⟩ : QVec3).y - (⟨0, 5, 0⟩ : QVec3).y| > 1/100) ∧
     removeWallDuplicates (fun q => q)
        ⟨(0, 0), (0, 0), (0, 0), [], [],
          [⟨⟨0, 0, 0⟩, ⟨0, 5, 0⟩, ⟨1, 0, 0⟩⟩, ⟨⟨0, 5, 0⟩, ⟨0, 0, 0⟩, ⟨1, 0, 0⟩⟩]⟩ =
       some ⟨(0, 0), (0, 0), (0, 0), [], [],
          [⟨⟨0, 0, 0⟩, ⟨0, 5, 0⟩, ⟨1, 0, 0⟩⟩, ⟨⟨0, 5, 0⟩, ⟨0, 0, 0⟩, ⟨1, 0, 0⟩⟩]⟩) := by
  have hm : wallsMatch (fun q => q) ⟨⟨0, 0, 0⟩, ⟨2, 1, 0⟩, ⟨0, 0, 0⟩⟩
      ⟨⟨0, 0, 0⟩, ⟨2, 1, 0⟩, ⟨7, 7, 7⟩⟩ = true := by
    unfold wallsMatch QVec3.sub QVec3.qlen
    norm_num
  have hy : |(⟨0, 0, 0⟩ : QVec3).y - (⟨0, 5, 0⟩ : QVec3).y| > 1/100 := by
    norm_num
  have h := wall_dedup_c5_amended (fun q => q)
    ⟨(0, 0), (0, 0), (0, 0), [], [],
      [⟨⟨0, 0, 0⟩, ⟨2, 1, 0⟩, ⟨0, 0, 0⟩⟩, ⟨⟨0, 0, 0⟩, ⟨2, 1, 0⟩, ⟨7, 7, 7⟩⟩]⟩
    ⟨(0, 0), (0, 0), (0, 0), [], [],
      [⟨⟨0, 0, 0⟩, ⟨0, 5, 0⟩, ⟨1, 0, 0⟩⟩, ⟨⟨0, 5, 0⟩, ⟨0, 0, 0⟩, ⟨1, 0, 0⟩⟩]⟩
    ⟨⟨0, 0, 0⟩, ⟨2, 1, 0⟩, ⟨0, 0, 0⟩⟩ ⟨⟨0, 0, 0⟩, ⟨2, 1, 0⟩, ⟨7, 7, 7⟩⟩
    ⟨0, 0, 0⟩ ⟨0, 5, 0⟩ ⟨1, 0, 0⟩ ⟨1, 0, 0⟩
  exact ⟨⟨rfl, hm, h.1 rfl hm⟩, hy, h.2 rfl hy⟩

/-- C2 (failing-input evaluation): encoding the one-vertex one-face model with
normals and texcoords included and decoding the bytes does NOT reproduce the
model — the face-index section (written via the `&u16 → &[u8; 6]` transmute
with the flattened index count) decodes to nine zero indices instead of the
original three, so the mesh round-trip is not the identity. -/
theorem roundtrip_c2_bug :
    (modelFromBytes (modelWriteBytes ⟨[⟨0, 0, 0, 0, 0, 0, 0, 0⟩], [0, 0, 0]⟩ true true
        (fun _ => 0)) ≠ some ⟨[⟨0, 0, 0, 0, 0, 0, 0, 0⟩], [0, 0, 0]⟩) ∧
    ((modelFromBytes (modelWriteBytes ⟨[⟨0, 0, 0, 0, 0, 0, 0, 0⟩], [0, 0, 0]⟩ true true
        (fun _ => 0))).map ModelBits.face_indices = some (List.replicate 9 0)) ∧
    ((⟨[⟨0, 0, 0, 0, 0, 0, 0, 0⟩], [0, 0, 0]⟩ : ModelBits).face_indices.length = 3) := by
  refine ⟨?_, ?_, rfl⟩ <;> decide

/-- Word fits in 32 bits. -/
def WVec3.wf (v : WVec3) : Prop :=
  v.x < 4294967296 ∧ v.y < 4294967296 ∧ v.z < 4294967296

/-- All four vectors of a surface record fit in 32 bits. -/
def WSurface.wf (s : WSurface) : Prop :=
  s.point_0.wf ∧ s.point_1.wf ∧ s.point_2.wf ∧ s.normal.wf

/-- All three vectors of a wall record fit in 32 bits. -/
def WWall.wf (w : WWall) : Prop :=
  w.bottom_left.wf ∧ w.top_right.wf ∧ w.normal.wf

/-- All numeric fields of a collision set are genuine 32-bit words and the
record counts fit in a u32. -/
def CollisionBits.wf (c : CollisionBits) : Prop :=
  c.extent_x.1 < 4294967296 ∧ c.extent_x.2 < 4294967296 ∧
  c.extent_y.1 < 4294967296 ∧ c.extent_y.2 < 4294967296 ∧
  c.extent_z.1 < 4294967296 ∧ c.extent_z.2 < 4294967296 ∧
  c.traction_surfaces.length < 4294967296 ∧
  c.sliding_surfaces.length < 4294967296 ∧
  c.walls.length < 4294967296 ∧
  (∀ s ∈ c.traction_surfaces, s.wf) ∧ (∀ s ∈ c.sliding_surfaces, s.wf) ∧
  (∀ w ∈ c.walls, w.wf)

/-- Reading back four just-written bytes yields the written word. -/
theorem takeU32_u32b (n : Nat) (r : List Nat) (h : n < 4294967296) :
    takeU32 (u32b n ++ r) = some (n, r) := by
  show takeU32 (n % 256 :: (n / 256 % 256) :: (n / 65536 % 256) ::
    (n / 16777216 % 256) :: r) = some (n, r)
  simp only [takeU32, Option.some.injEq, Prod.mk.injEq]
  refine ⟨?_, trivial⟩
  omega

/-- Reading back a just-written Vec3 record. -/
theorem takeWVec3_bytes (v : WVec3) (r : List Nat) (h : v.wf) :
    takeWVec3 (wvec3Bytes v ++ r) = some (v, r) := by
  obtain ⟨hx, hy, hz⟩ := h
  unfold takeWVec3 wvec3Bytes
  rw [List.append_assoc, List.append_assoc]
  rw [takeU32_u32b v.x _ hx]
  simp only [Option.bind_eq_bind, Option.some_bind]
  rw [takeU32_u32b v.y _ hy]
  simp only [Option.some_bind]
  rw [takeU32_u32b v.z _ hz]
  rfl

/-- Reading back a just-written Surface record. -/
theorem takeWSurface_bytes (s : WSurface) (r : List Nat) (h : s.wf) :
    takeWSurface (wsurfaceBytes s ++ r) = some (s, r) := by
  obtain ⟨h0, h1, h2, hn⟩ := h
  unfold takeWSurface wsurfaceBytes
  rw [List.append_assoc, List.append_assoc, List.append_assoc]
  rw [takeWVec3_bytes s.point_0 _ h0]
  simp only [Option.bind_eq_bind, Option.some_bind]
  rw [takeWVec3_bytes s.point_1 _ h1]
  simp only [Option.some_bind]
  rw [takeWVec3_bytes s.point_2 _ h2]
  simp only [Option.some_bind]
  rw [takeWVec3_bytes s.normal _ hn]
  rfl

/-- Reading back a just-written Wall record. -/
theorem takeWWall_bytes (w : WWall) (r : List Nat) (h : w.wf) :
    takeWWall (wwallBytes w ++ r) = some (w, r) := by
  obtain ⟨hb, ht, hn⟩ := h
  unfold takeWWall wwallBytes
  rw [List.append_assoc, List.append_assoc]
  rw [takeWVec3_bytes w.bottom_left _ hb]
  simp only [Option.bind_eq_bind, Option.some_bind]
  rw [takeWVec3_bytes w.top_right _ ht]
  simp only [Option.some_bind]
  rw [takeWVec3_bytes w.normal _ hn]
  rfl

/-- Reading back a just-written array of records. -/
theorem takeRecords_bytes {α : Type} (take1 : List Nat → Option (α × List Nat))
    (bytes : α → List Nat) (P : α → Prop)
    (htake : ∀ (a : α) (r : List Nat), P a → take1 (bytes a ++ r) = some (a, r)) :
    ∀ (l : List α) (r : List Nat), (∀ a ∈ l, P a) →
      takeRecords take1 l.length (l.flatMap bytes ++ r) = some (l, r) := by
  intro l
  induction l with
  | nil => intro r _; simp [takeRecords]
  | cons a t ih =>
      intro r hall
      simp only [List.length_cons, List.flatMap_cons, List.append_assoc, takeRecords,
        Option.bind_eq_bind]
      rw [htake a _ (hall a (by simp))]
      simp only [Option.some_bind]
      rw [ih r (fun b hb => hall b (by simp [hb]))]
      rfl

set_option maxHeartbeats 1000000 in
/-- Round-trip of the collision codec: encoding a well-formed collision set
and decoding the bytes reproduces every numeric field bit-for-bit. -/
theorem collision_roundtrip (c : CollisionBits) (hwf : c.wf) :
    collisionFromBytes (collisionWriteBytes c) = some c := by
  obtain ⟨h1, h2, h3, h4, h5, h6, hlt, hls, hlw, hwt, hws, hww⟩ := hwf
  unfold collisionFromBytes collisionWriteBytes
  rw [Nat.mod_eq_of_lt hlt, Nat.mod_eq_of_lt hls, Nat.mod_eq_of_lt hlw]
  simp only [List.append_assoc]
  rw [takeU32_u32b 1 _ (by norm_num)]
  simp only [Option.bind_eq_bind, Option.some_bind]
  rw [if_neg (by simp)]
  rw [takeU32_u32b c.extent_x.1 _ h1]
  simp only [Option.some_bind]
  rw [takeU32_u32b c.extent_x.2 _ h2]
  simp only [Option.some_bind]
  rw [takeU32_u32b c.extent_y.1 _ h3]
  simp only [Option.some_bind]
  rw [takeU32_u32b c.extent_y.2 _ h4]
  simp only [Option.some_bind]
  rw [takeU32_u32b c.extent_z.1 _ h5]
  simp only [Option.some_bind]
  rw [takeU32_u32b c.extent_z.2 _ h6]
  simp only [Option.some_bind]
  rw [takeU32_u32b c.traction_surfaces.length _ hlt]
  simp only [Option.some_bind]
  rw [takeRecords_bytes takeWSurface wsurfaceBytes WSurface.wf takeWSurface_bytes
    c.traction_surfaces _ hwt]
  simp only [Option.some_bind]
  rw [takeU32_u32b c.sliding_surfaces.length _ hls]
  simp only [Option.some_bind]
  rw [takeRecords_bytes takeWSurface wsurfaceBytes WSurface.wf takeWSurface_bytes
    c.sliding_surfaces _ hws]
  simp only [Option.some_bind]
  rw [takeU32_u32b c.walls.length _ hlw]
  simp only [Option.some_bind]
  rw [show c.walls.flatMap wwallBytes = c.walls.flatMap wwallBytes ++ [] from
    (List.append_nil _).symm]
  rw [takeRecords_bytes takeWWall wwallBytes WWall.wf takeWWall_bytes c.walls [] hww]
  rfl

/-- Byte read shifted past a cons cell. -/
theorem byteAt_append_right (xs ys : List Nat) (i : Nat) :
    byteAt (xs ++ ys) (xs.length + i) = byteAt ys i := by
  unfold byteAt
  rw [List.getD_append_right xs ys 0 (xs.length + i) (by omega)]
  congr 2
  omega

/-- u32 read shifted past an appended block. -/
theorem readU32_append_right (xs ys : List Nat) (i : Nat) :
    readU32 (xs ++ ys) (xs.length + i) = readU32 ys i := by
  unfold readU32
  rw [byteAt_append_right,
    show xs.length + i + 1 = xs.length + (i + 1) from by omega, byteAt_append_right,
    show xs.length + i + 2 = xs.length + (i + 2) from by omega, byteAt_append_right,
    show xs.length + i + 3 = xs.length + (i + 3) from by omega, byteAt_append_right]

/-- u16 read shifted past an appended block. -/
theorem readU16_append_right (xs ys : List Nat) (i : Nat) :
    readU16 (xs ++ ys) (xs.length + i) = readU16 ys i := by
  unfold readU16
  rw [byteAt_append_right,
    show xs.length + i + 1 = xs.length + (i + 1) from by omega, byteAt_append_right]

/-- Drop shifted past an appended block. -/
theorem drop_append_off (xs ys : List Nat) (k : Nat) :
    (xs ++ ys).drop (xs.length + k) = ys.drop k := by
  induction xs with
  | nil => simp
  | cons a t ih =>
      simp only [List.cons_append, List.length_cons]
      rw [show t.length + 1 + k = (t.length + k) + 1 from by omega, List.drop_succ_cons, ih]

/-- Reading a u32 where it was just written. -/
theorem readU32_u32b_here (n : Nat) (r : List Nat) :
    readU32 (u32b n ++ r) 0 = n % 4294967296 := by
  show readU32 (n % 256 :: (n / 256 % 256) :: (n / 65536 % 256) ::
    (n / 16777216 % 256) :: r) 0 = n % 4294967296
  simp only [readU32, byteAt, List.getD_cons_zero, List.getD_cons_succ]
  omega

/-- Reading a u16 where it was just written. -/
theorem readU16_u16b_here (n : Nat) (r : List Nat) :
    readU16 (u16b n ++ r) 0 = n % 65536 := by
  show readU16 (n % 256 :: (n / 256 % 256) :: r) 0 = n % 65536
  simp only [readU16, byteAt, List.getD_cons_zero, List.getD_cons_succ]
  omega

/-- u32 read past one leading u32 field. -/
theorem readU32_skip_u32b (x : Nat) (ys : List Nat) (i : Nat) :
    readU32 (u32b x ++ ys) (4 + i) = readU32 ys i := by
  have h : (u32b x).length = 4 := rfl
  rw [show (4 : Nat) + i = (u32b x).length + i from by rw [h]]
  exact readU32_append_right _ _ _

/-- u16 read past one leading u32 field. -/
theorem readU16_skip_u32b (x : Nat) (ys : List Nat) (i : Nat) :
    readU16 (u32b x ++ ys) (4 + i) = readU16 ys i := by
  have h : (u32b x).length = 4 := rfl
  rw [show (4 : Nat) + i = (u32b x).length + i from by rw [h]]
  exact readU16_append_right _ _ _

/-- Drop past one leading u32 field. -/
theorem drop_skip_u32b (x : Nat) (ys : List Nat) (i : Nat) :
    (u32b x ++ ys).drop (4 + i) = ys.drop i := by
  have h : (u32b x).length = 4 := rfl
  rw [show (4 : Nat) + i = (u32b x).length + i from by rw [h]]
  exact drop_append_off _ _ _

/-- Total byte length of the interleaved 32-byte vertex block. -/
theorem flatMap_vertexBytes32_length (l : List WVertex) :
    (l.flatMap vertexBytes32).length = 32 * l.length := by
  induction l with
  | nil => rfl
  | cons v t ih =>
      simp only [List.flatMap_cons, List.length_append, List.length_cons, ih]
      have : (vertexBytes32 v).length = 32 := rfl
      omega

/-- Total byte length of the face section: six bytes per index entry. -/
theorem facesN_length (xs : List Nat) (junk : Nat → Nat) :
    ∀ (n i : Nat), (facesN xs junk i n).length = 6 * n := by
  intro n
  induction n with
  | zero => intro i; rfl
  | succ k ih =>
      intro i
      simp only [facesN, List.length_append, ih]
      have : (facesChunk xs junk i).length = 6 := rfl
      omega

/-- u32 read past the vertex block. -/
theorem readU32_skip_vertices (l : List WVertex) (ys : List Nat) (i : Nat) :
    readU32 (l.flatMap vertexBytes32 ++ ys) (32 * l.length + i) = readU32 ys i := by
  have h := flatMap_vertexBytes32_length l
  rw [← h]
  exact readU32_append_right _ _ _

/-- u16 read past the vertex block. -/
theorem readU16_skip_vertices (l : List WVertex) (ys : List Nat) (i : Nat) :
    readU16 (l.flatMap vertexBytes32 ++ ys) (32 * l.length + i) = readU16 ys i := by
  have h := flatMap_vertexBytes32_length l
  rw [← h]
  exact readU16_append_right _ _ _

/-- The two bytes at entry offset `6 * k` of the face section are the `u16`
value of index entry `i + k` (the remaining four bytes of each record repeat
the following entries or adjacent memory). -/
theorem facesN_read (xs : List Nat) (junk : Nat → Nat) :
    ∀ (n k i : Nat) (r : List Nat), k < n →
      readU16 (facesN xs junk i n ++ r) (6 * k) = idxAt xs junk (i + k) % 65536 := by
  intro n
  induction n with
  | zero => intro k i r hk; omega
  | succ m ih =>
      intro k i r hk
      match k with
      | 0 =>
          simp only [facesN, facesChunk, List.append_assoc, Nat.mul_zero, Nat.add_zero]
          rw [readU16_u16b_here]
      | k + 1 =>
          simp only [facesN, List.append_assoc]
          have hchunk : (facesChunk xs junk i).length = 6 := rfl
          rw [show (6 : Nat) * (k + 1) = (facesChunk xs junk i).length + 6 * k from by
            rw [hchunk]; omega]
          rw [readU16_append_right]
          rw [show i + (k + 1) = (i + 1) + k from by omega]
          exact ih k (i + 1) r (by omega)

/-- The 32 bytes at vertex offset `32 * i` are exactly vertex `i`. -/
theorem flatMap_vertexBytes32_read (l : List WVertex) :
    ∀ (i : Nat) (r : List Nat), i < l.length →
      ((l.flatMap vertexBytes32 ++ r).drop (32 * i)).take 32 =
        vertexBytes32 (l.getD i ⟨0, 0, 0, 0, 0, 0, 0, 0⟩) := by
  induction l with
  | nil => intro i r h; simp at h
  | cons v t ih =>
      intro i r h
      match i with
      | 0 =>
          simp only [List.flatMap_cons, List.append_assoc, Nat.mul_zero, List.drop_zero,
            List.getD_cons_zero]
          rw [show (32 : Nat) = (vertexBytes32 v).length from rfl, List.take_left]
      | i + 1 =>
          simp only [List.flatMap_cons, List.append_assoc, List.getD_cons_succ]
          rw [show 32 * (i + 1) = (vertexBytes32 v).length + 32 * i from by
            rw [show (vertexBytes32 v).length = 32 from rfl]; omega]
          rw [drop_append_off]
          exact ih i r (by simpa using h)

/-- Mesh layout exactly as the documentation words it, for comparison with the
writer: `u32 version | u32 vertexCount | vertexCount × 32-byte vertices |
u32 faceCount | faceCount × 3 × u16`, with no other fields between the
version and the vertex count. -/
def meshClaimedLayoutBytes (m : ModelBits) : List Nat :=
  u32b 1 ++ u32b m.interleaved_vertices.length ++
    m.interleaved_vertices.flatMap vertexBytes32 ++
    u32b (m.face_indices.length / 3) ++ m.face_indices.flatMap u16b

/-- Counterexample to C8: for the one-vertex one-face model the writer's
output does not follow the documented layout — the documented stream is 50
bytes while the written one is 70 (two extra flag fields after the version
and six bytes per index entry instead of two). -/
theorem mesh_layout_c8_counterexample :
    (meshClaimedLayoutBytes ⟨[⟨0, 0, 0, 0, 0, 0, 0, 0⟩], [0, 0, 0]⟩ ≠
      modelWriteBytes ⟨[⟨0, 0, 0, 0, 0, 0, 0, 0⟩], [0, 0, 0]⟩ true true (fun _ => 0)) ∧
    (meshClaimedLayoutBytes ⟨[⟨0, 0, 0, 0, 0, 0, 0, 0⟩], [0, 0, 0]⟩).length = 50 ∧
    (modelWriteBytes ⟨[⟨0, 0, 0, 0, 0, 0, 0, 0⟩], [0, 0, 0]⟩ true true (fun _ => 0)).length =
      70 := by
  refine ⟨?_, ?_, ?_⟩ <;> decide

/-- C8 (amended): the mesh artifact written with normals and texcoords
included consists, in order, of a u32 version `1`, two u32-encoded flag fields
both `1`, the u32 vertex count at offset 12, the 32-byte vertices from offset
16, the u32 count of flattened index entries (three per face) right after the
vertex block, and then one 6-byte record per u16 index entry whose first two
bytes hold that entry. -/
theorem mesh_layout_c8_amended (m : ModelBits) (junk : Nat → Nat) :
    (modelWriteBytes m true true junk).length =
      20 + 32 * m.interleaved_vertices.length + 6 * m.face_indices.length ∧
    readU32 (modelWriteBytes m true true junk) 0 = 1 ∧
    readU32 (modelWriteBytes m true true junk) 4 = 1 ∧
    readU32 (modelWriteBytes m true true junk) 8 = 1 ∧
    readU32 (modelWriteBytes m true true junk) 12 =
      m.interleaved_vertices.length % 4294967296 ∧
    (∀ i < m.interleaved_vertices.length,
      ((modelWriteBytes m true true junk).drop (16 + 32 * i)).take 32 =
        vertexBytes32 (m.interleaved_vertices.getD i ⟨0, 0, 0, 0, 0, 0, 0, 0⟩)) ∧
    readU32 (modelWriteBytes m true true junk) (16 + 32 * m.interleaved_vertices.length) =
      m.face_indices.length % 4294967296 ∧
    (∀ i < m.face_indices.length,
      readU16 (modelWriteBytes m true true junk)
        (20 + 32 * m.interleaved_vertices.length + 6 * i) =
        m.face_indices.getD i 0 % 65536) := by
  have hB : modelWriteBytes m true true junk =
      u32b 1 ++ (u32b 1 ++ (u32b 1 ++ (u32b (m.interleaved_vertices.length % 4294967296) ++
        (m.interleaved_vertices.flatMap vertexBytes32 ++
          (u32b (m.face_indices.length % 4294967296) ++ facesBytes m.face_indices junk))))) := by
    unfold modelWriteBytes
    simp [List.append_assoc]
  refine ⟨?_, ?_, ?_, ?_, ?_, ?_, ?_, ?_⟩
  · rw [hB]
    simp only [List.length_append, flatMap_vertexBytes32_length, facesBytes, facesN_length]
    have h4 : (u32b 1).length = 4 := rfl
    have h4b : (u32b (m.interleaved_vertices.length % 4294967296)).length = 4 := rfl
    have h4c : (u32b (m.face_indices.length % 4294967296)).length = 4 := rfl
    omega
  · rw [hB, readU32_u32b_here]
  · rw [hB, show (4 : Nat) = 4 + 0 from rfl, readU32_skip_u32b, readU32_u32b_here]
  · rw [hB, show (8 : Nat) = 4 + 4 from rfl, readU32_skip_u32b,
      show (4 : Nat) = 4 + 0 from rfl, readU32_skip_u32b, readU32_u32b_here]
  · rw [hB, show (12 : Nat) = 4 + 8 from rfl, readU32_skip_u32b,
      show (8 : Nat) = 4 + 4 from rfl, readU32_skip_u32b,
      show (4 : Nat) = 4 + 0 from rfl, readU32_skip_u32b, readU32_u32b_here]
    omega
  · intro i hi
    rw [hB, show 16 + 32 * i = 4 + (4 + (4 + (4 + 32 * i))) from by omega,
      drop_skip_u32b, drop_skip_u32b, drop_skip_u32b, drop_skip_u32b]
    exact flatMap_vertexBytes32_read m.interleaved_vertices i _ hi
  · rw [hB, show 16 + 32 * m.interleaved_vertices.length =
      4 + (4 + (4 + (4 + (32 * m.interleaved_vertices.length + 0)))) from by omega,
      readU32_skip_u32b, readU32_skip_u32b, readU32_skip_u32b, readU32_skip_u32b,
      readU32_skip_vertices, readU32_u32b_here]
    omega
  · intro i hi
    rw [hB, show 20 + 32 * m.interleaved_vertices.length + 6 * i =
      4 + (4 + (4 + (4 + (32 * m.interleaved_vertices.length + (4 + 6 * i))))) from by omega,
      readU16_skip_u32b, readU16_skip_u32b, readU16_skip_u32b, readU16_skip_u32b,
      readU16_skip_vertices, readU16_skip_u32b]
    unfold facesBytes
    rw [show facesN m.face_indices junk 0 m.face_indices.length =
      facesN m.face_indices junk 0 m.face_indices.length ++ [] from (List.append_nil _).symm,
      facesN_read m.face_indices junk m.face_indices.length i 0 [] hi]
    simp [idxAt, hi]

/-- Witness for the amended C8 at the one-vertex one-face model. -/
theorem mesh_layout_c8_amended_witness :
    ((modelWriteBytes ⟨[⟨0, 0, 0, 0, 0, 0, 0, 0⟩], [0, 0, 0]⟩ true true (fun _ => 0)).length =
      20 + 32 * (⟨[⟨0, 0, 0, 0, 0, 0, 0, 0⟩], [0, 0, 0]⟩ : ModelBits).interleaved_vertices.length +
        6 * (⟨[⟨0, 0, 0, 0, 0, 0, 0, 0⟩], [0, 0, 0]⟩ : ModelBits).face_indices.length) ∧
    (0 < (⟨[⟨0, 0, 0, 0, 0, 0, 0, 0⟩], [0, 0, 0]⟩ : ModelBits).face_indices.length) ∧
    readU16 (modelWriteBytes ⟨[⟨0, 0, 0, 0, 0, 0, 0, 0⟩], [0, 0, 0]⟩ true true (fun _ => 0))
      (20 + 32 * (⟨[⟨0, 0, 0, 0, 0, 0, 0, 0⟩], [0, 0, 0]⟩ :
        ModelBits).interleaved_vertices.length + 6 * 0) =
      (⟨[⟨0, 0, 0, 0, 0, 0, 0, 0⟩], [0, 0, 0]⟩ : ModelBits).face_indices.getD 0 0 % 65536 :=
  ⟨(mesh_layout_c8_amended ⟨[⟨0, 0, 0, 0, 0, 0, 0, 0⟩], [0, 0, 0]⟩ (fun _ => 0)).1,
    by decide,
    (mesh_layout_c8_amended ⟨[⟨0, 0, 0, 0, 0, 0, 0, 0⟩], [0, 0, 0]⟩
      (fun _ => 0)).2.2.2.2.2.2.2 0 (by decide)⟩
